import Mathlib

/-!
Shallow embedding of the Agent repository's iterative orchestration core:
the tool registry (`src/server/agents/tools/tool_registry.py`) and the
parallel execution harness plus iterative processing loop
(`src/server/agents/core/agent_orchestrator.py`), together with proofs about
registration, selection, execution bookkeeping and the loop's control flow.

Modelling conventions: Python floats are modelled as rationals; Python dicts
are modelled as insertion-ordered association lists, matching CPython's
documented iteration order (replacement keeps a key's position, fresh keys
append); external collaborators that are not part of the source tree
(quality assessor, translator, memory store) are modelled as function
parameters, mirroring their call contracts.
-/

namespace Agent

/-- Python dict lookup `d.get(k)`: first binding of the key wins (keys are
unique in every reachable dict). -/
def dictGet {V : Type} : List (String × V) → String → Option V
  | [], _ => none
  | (k', v) :: rest, k => if k' = k then some v else dictGet rest k

/-- Python membership test `k in d`. -/
def dictMem {V : Type} (d : List (String × V)) (k : String) : Bool :=
  (dictGet d k).isSome

/-- Python assignment `d[k] = v`: replace in place if the key is present
(keeping its position, as CPython does), otherwise append at the end. -/
def dictSet {V : Type} : List (String × V) → String → V → List (String × V)
  | [], k, v => [(k, v)]
  | (k', v') :: rest, k, v =>
    if k' = k then (k, v) :: rest else (k', v') :: dictSet rest k v

/-- Python deletion `del d[k]` (removes the first binding; keys are unique in
every reachable dict). -/
def dictDel {V : Type} : List (String × V) → String → List (String × V)
  | [], _ => []
  | (k', v') :: rest, k => if k' = k then rest else (k', v') :: dictDel rest k

/-- Insert into a list that is sorted by weakly descending key, placing the
new element after every element of greater-or-equal key. -/
def insertDesc {α : Type} (key : α → ℚ) (x : α) : List α → List α
  | [] => [x]
  | y :: ys => if key x ≤ key y then y :: insertDesc key x ys else x :: y :: ys

/-- Stable sort by descending key: the behaviour of CPython's stable
`list.sort(key=..., reverse=True)` (elements of equal key keep their
original relative order). -/
def stableSortDesc {α : Type} (key : α → ℚ) (l : List α) : List α :=
  l.foldl (fun acc x => insertDesc key x acc) []

/-- Python `c.lower()` on a single character (ASCII case mapping; every
string constant in the modelled sources is ASCII). -/
def lowerChar (c : Char) : Char :=
  if 65 ≤ c.toNat ∧ c.toNat ≤ 90 then Char.ofNat (c.toNat + 32) else c

/-- Python `s.lower()` (ASCII case mapping). -/
def pyLower (s : String) : String :=
  ⟨s.data.map lowerChar⟩

/-- Python falsiness of `s.strip()`: the string is empty or whitespace
only. -/
def pyBlank (s : String) : Bool :=
  s.data.all Char.isWhitespace

/-- Helper for word splitting: walk the characters with the current word
accumulated in reverse. -/
def wordsAux : List Char → List Char → List String
  | [], acc => if acc = [] then [] else [⟨acc.reverse⟩]
  | c :: cs, acc =>
    if c.isWhitespace then
      if acc = [] then wordsAux cs [] else ⟨acc.reverse⟩ :: wordsAux cs []
    else wordsAux cs (c :: acc)

/-- Python `s.split()` with no argument: split on whitespace runs, dropping
empty pieces. -/
def pyWords (s : String) : List String :=
  wordsAux s.data []

/-- Character-list prefix test. -/
def charsPre : List Char → List Char → Bool
  | [], _ => true
  | _ :: _, [] => false
  | p :: ps, c :: cs => p == c && charsPre ps cs

/-- Character-list substring test. -/
def charsContains (s pat : List Char) : Bool :=
  match s with
  | [] => charsPre pat []
  | _ :: cs => charsPre pat s || charsContains cs pat

/-- Python substring test `pat in s`. -/
def strContains (s pat : String) : Bool :=
  charsContains s.data pat.data

/-- Python slice `l[-n:]`. -/
def takeLast {α : Type} (n : Nat) (l : List α) : List α :=
  l.drop (l.length - n)

/-- The `QueryType` enum of `agent_orchestrator.py`. -/
inductive QueryType where
  | troubleshooting
  | comparison
  | general_inquiry
  | configuration
  | performance
  deriving DecidableEq, Repr

/-- The `.value` string of a `QueryType` enum member. -/
def QueryType.value : QueryType → String
  | .troubleshooting => "troubleshooting"
  | .comparison => "comparison"
  | .general_inquiry => "general_inquiry"
  | .configuration => "configuration"
  | .performance => "performance"

/-- Projection of the user-preference dict: `web_search_enabled` is the only
preference key read by the code paths modelled here, and the Python reads are
`get("web_search_enabled", True)`, so the default is `true`. -/
structure UserPrefs where
  web_search_enabled : Bool := true
  deriving DecidableEq, Repr

/-- The `QueryContext` dataclass of `agent_orchestrator.py`. Session-history
entries are opaque to the verified code paths and kept as strings. -/
structure QueryContext where
  user_id : String
  thread_id : String
  query : String
  language : String
  query_type : QueryType
  confidence_score : ℚ
  domain_relevance : ℚ
  session_history : List String
  user_preferences : UserPrefs
  deriving DecidableEq, Repr

/-- One entry of a tool's result list. Only the keys read by the response
synthesis code (`content`, `url`, `title`, `service`) are modelled; a missing
key is `none`. -/
structure ResultRecord where
  content : String
  url : Option String := none
  title : Option String := none
  service : Option String := none
  deriving DecidableEq, Repr

/-- The `ToolResult` dataclass of `tool_registry.py`. The free-form
`metadata` payload is never read by the verified code paths and is not
modelled. -/
structure ToolResult where
  tool_name : String
  success : Bool
  results : List ResultRecord
  sources : List String
  confidence : ℚ
  response_time : ℚ
  error_message : Option String := none
  deriving DecidableEq, Repr

/-- The mutable statistics of `ToolMetadata` (usage count, success rate,
average response time, last-used timestamp); the immutable fields (version,
author, created-at) play no role in the verified code paths. -/
structure ToolMetadata where
  usage_count : Nat := 0
  success_rate : ℚ := 0
  average_response_time : ℚ := 0
  last_used : Option ℚ := none
  deriving DecidableEq, Repr

/-- `BaseTool.update_metrics`: increment the usage count, stamp `last_used`,
and recompute success rate and mean latency incrementally. `now` stands for
`datetime.now()`. -/
def ToolMetadata.update_metrics (m : ToolMetadata) (success : Bool)
    (response_time now : ℚ) : ToolMetadata :=
  let usage := m.usage_count + 1
  let rate :=
    if usage = 1 then (if success then 1 else 0)
    else (m.success_rate * ((usage : ℚ) - 1) + (if success then 1 else 0)) /
      (usage : ℚ)
  let avg :=
    if usage = 1 then response_time
    else (m.average_response_time * ((usage : ℚ) - 1) + response_time) /
      (usage : ℚ)
  { m with usage_count := usage, success_rate := rate,
           average_response_time := avg, last_used := some now }

/-- A registered tool: the fields of `BaseTool` (name, description, category,
mutable metadata) together with its behaviour. `validate` models
`validate_input(query, context)`; `execu` models one call of
`execute(query, context)` — the returned result, or the raised fault as
`Except.error`, paired with the call's wall-clock latency in seconds. -/
structure Tool where
  name : String
  description : String
  category : String
  validate : String → QueryContext → Bool
  execu : String → QueryContext → Except String ToolResult × ℚ
  metadata : ToolMetadata := {}

/-- One per-tool record of the registry's `tool_performance` dict. Error
entries pair the error text with its timestamp. -/
structure PerfRecord where
  total_calls : Nat
  successful_calls : Nat
  failed_calls : Nat
  average_response_time : ℚ
  last_used : Option ℚ
  error_patterns : List (String × ℚ)
  deriving DecidableEq, Repr

/-- The zeroed record installed by `register_tool`. -/
def PerfRecord.init : PerfRecord :=
  { total_calls := 0, successful_calls := 0, failed_calls := 0,
    average_response_time := 0, last_used := none, error_patterns := [] }

/-- The state owned by `ToolRegistry`: the authoritative tool map, the
category index, and the performance ledger. -/
structure ToolRegistry where
  tools : List (String × Tool)
  tool_categories : List (String × List String)
  tool_performance : List (String × PerfRecord)

/-- The freshly constructed registry. -/
def ToolRegistry.empty : ToolRegistry :=
  { tools := [], tool_categories := [], tool_performance := [] }

namespace ToolRegistry

/-- `ToolRegistry.register_tool`: upsert by name, index the category
(appending the name to its bucket when absent), and install a zeroed
performance record. The Python method returns `True` on this always-succeeding
path. -/
def register_tool (s : ToolRegistry) (t : Tool) : Bool × ToolRegistry :=
  let tools' := dictSet s.tools t.name t
  let bucket := (dictGet s.tool_categories t.category).getD []
  let bucket' := if t.name ∈ bucket then bucket else bucket ++ [t.name]
  let cats' := dictSet s.tool_categories t.category bucket'
  let perf' := dictSet s.tool_performance t.name PerfRecord.init
  (true, { tools := tools', tool_categories := cats', tool_performance := perf' })

/-- `ToolRegistry.unregister_tool`: returns `False` when the name is absent;
otherwise removes the tool, removes the name from the bucket of the tool's
current category (deleting the bucket when it becomes empty), and drops the
performance record. -/
def unregister_tool (s : ToolRegistry) (tool_name : String) :
    Bool × ToolRegistry :=
  match dictGet s.tools tool_name with
  | none => (false, s)
  | some tool =>
    let tools' := dictDel s.tools tool_name
    let cats' :=
      match dictGet s.tool_categories tool.category with
      | none => s.tool_categories
      | some bucket =>
        let bucket' := if tool_name ∈ bucket then bucket.erase tool_name
                       else bucket
        if bucket' = [] then dictDel s.tool_categories tool.category
        else dictSet s.tool_categories tool.category bucket'
    let perf' :=
      if dictMem s.tool_performance tool_name then
        dictDel s.tool_performance tool_name
      else s.tool_performance
    (true, { tools := tools', tool_categories := cats',
             tool_performance := perf' })

/-- `ToolRegistry.get_tool`. -/
def get_tool (s : ToolRegistry) (tool_name : String) : Option Tool :=
  dictGet s.tools tool_name

/-- `ToolRegistry.get_tools_by_category`: the bucket's names resolved through
the tool map, skipping names that are not registered. -/
def get_tools_by_category (s : ToolRegistry) (category : String) : List Tool :=
  ((dictGet s.tool_categories category).getD []).filterMap
    (fun n => dictGet s.tools n)

/-- The score computed by `_select_by_performance` for one tool's metadata:
`success_rate * 0.5 + time_score * 0.3 + usage_weight * 0.2` with
`time_score = 1/(1+avg)` when `avg > 0` else `1` and
`usage_weight = min(1, usage/10)`. -/
def performanceScore (m : ToolMetadata) : ℚ :=
  let time_score : ℚ :=
    if 0 < m.average_response_time then 1 / (1 + m.average_response_time)
    else 1
  let usage_weight : ℚ := min 1 ((m.usage_count : ℚ) / 10)
  m.success_rate * (1 / 2) + time_score * (3 / 10) + usage_weight * (1 / 5)

/-- `ToolRegistry._select_by_performance`: score the validated tools in
registration order, stable-sort by score descending, return the top
`max_tools` names. -/
def select_by_performance (s : ToolRegistry) (query : String)
    (context : QueryContext) (max_tools : Nat) : List String :=
  let tool_scores := s.tools.filterMap (fun p =>
    if p.2.validate query context then some (p.1, performanceScore p.2.metadata)
    else none)
  ((stableSortDesc (fun x => x.2) tool_scores).take max_tools).map (fun x => x.1)

/-- The fixed `category_mapping` table of `_select_by_category`, applied to
the context's query type (`query_type.value`); every enum member is a key of
the table, so the `["search", "general"]` default is only the
`general_inquiry` row. -/
def categoryMapping (qt : QueryType) : List String :=
  match qt with
  | .troubleshooting => ["search", "analysis", "diagnostic"]
  | .comparison => ["search", "analysis", "comparison"]
  | .configuration => ["search", "documentation", "tutorial"]
  | .performance => ["search", "analysis", "monitoring"]
  | .general_inquiry => ["search", "general"]

/-- `ToolRegistry._select_by_category`: walk the relevant categories in
order, appending each validated tool's name until `max_tools` names are
collected (the inner `break` stops further appends once full). -/
def select_by_category (s : ToolRegistry) (query : String)
    (context : QueryContext) (max_tools : Nat) : List String :=
  let relevant := categoryMapping context.query_type
  let selected := relevant.foldl (fun acc c =>
    (s.get_tools_by_category c).foldl (fun acc2 t =>
      if max_tools ≤ acc2.length then acc2
      else if t.validate query context then acc2 ++ [t.name] else acc2) acc) []
  selected.take max_tools

/-- The relevance score of `_select_by_relevance`: the number of distinct
words shared by the lowercased query and the lowercased tool description,
divided by the number of distinct query words (`0` for a wordless query). -/
def relevanceScore (query description : String) : ℚ :=
  let query_words := (pyWords (pyLower query)).eraseDups
  let description_words := (pyWords (pyLower description)).eraseDups
  let common := query_words.filter (fun w => description_words.contains w)
  if query_words = [] then 0
  else (common.length : ℚ) / (query_words.length : ℚ)

/-- `ToolRegistry._select_by_relevance`: score the validated tools in
registration order by lexical overlap, stable-sort descending, return the top
`max_tools` names. -/
def select_by_relevance (s : ToolRegistry) (query : String)
    (context : QueryContext) (max_tools : Nat) : List String :=
  let relevance_scores := s.tools.filterMap (fun p =>
    if p.2.validate query context then some (p.1, relevanceScore query p.2.description)
    else none)
  ((stableSortDesc (fun x => x.2) relevance_scores).take max_tools).map
    (fun x => x.1)

/-- Add a positional score contribution into the hybrid score dict:
`tool_scores[name] = tool_scores.get(name, 0) + score`. -/
def addScore (d : List (String × ℚ)) (n : String) (v : ℚ) :
    List (String × ℚ) :=
  dictSet d n (((dictGet d n).getD 0) + v)

/-- `ToolRegistry._select_hybrid`: run the three strategies, give the tool at
position `i` of a strategy's list the contribution
`weight * (max_tools - i) / max_tools` (weights 0.4 / 0.4 / 0.2), and return
the top `max_tools` names by combined score (stable sort over the score
dict's insertion order). -/
def select_hybrid (s : ToolRegistry) (query : String) (context : QueryContext)
    (max_tools : Nat) : List String :=
  let performance_tools := s.select_by_performance query context max_tools
  let category_tools := s.select_by_category query context max_tools
  let relevance_tools := s.select_by_relevance query context max_tools
  let tool_scores : List (String × ℚ) := []
  let tool_scores := performance_tools.enum.foldl (fun acc p =>
    addScore acc p.2 ((2 / 5) * ((max_tools : ℚ) - p.1) / (max_tools : ℚ)))
    tool_scores
  let tool_scores := category_tools.enum.foldl (fun acc p =>
    addScore acc p.2 ((2 / 5) * ((max_tools : ℚ) - p.1) / (max_tools : ℚ)))
    tool_scores
  let tool_scores := relevance_tools.enum.foldl (fun acc p =>
    addScore acc p.2 ((1 / 5) * ((max_tools : ℚ) - p.1) / (max_tools : ℚ)))
    tool_scores
  ((stableSortDesc (fun x => x.2) tool_scores).take max_tools).map
    (fun x => x.1)

/-- `ToolRegistry.select_tools`: dispatch on the strategy name, falling back
to `hybrid` for an unknown name. None of the strategies can raise in this
model, so the `except` branch returning `[]` is unreachable. -/
def select_tools (s : ToolRegistry) (query : String) (context : QueryContext)
    (strategy : String) (max_tools : Nat) : List String :=
  if strategy = "performance" then s.select_by_performance query context max_tools
  else if strategy = "category" then s.select_by_category query context max_tools
  else if strategy = "relevance" then s.select_by_relevance query context max_tools
  else s.select_hybrid query context max_tools

/-- `ToolRegistry._update_performance_tracking`: no-op for an untracked name;
otherwise bump the call counters, stamp `last_used`, append a failure's error
text to the ring (keeping the last 10 entries) and recompute the mean
response time incrementally. -/
def update_performance_tracking (s : ToolRegistry) (tool_name : String)
    (success : Bool) (response_time : ℚ) (error_message : Option String)
    (now : ℚ) : ToolRegistry :=
  match dictGet s.tool_performance tool_name with
  | none => s
  | some perf =>
    let total := perf.total_calls + 1
    let succ' := if success then perf.successful_calls + 1
                 else perf.successful_calls
    let failed := if success then perf.failed_calls else perf.failed_calls + 1
    let errors :=
      if success then perf.error_patterns
      else match error_message with
        | some e => takeLast 10 (perf.error_patterns ++ [(e, now)])
        | none => perf.error_patterns
    let avg :=
      if total = 1 then response_time
      else (perf.average_response_time * ((total : ℚ) - 1) + response_time) /
        (total : ℚ)
    let perf' : PerfRecord :=
      { total_calls := total, successful_calls := succ', failed_calls := failed,
        average_response_time := avg, last_used := some now,
        error_patterns := errors }
    { s with tool_performance := dictSet s.tool_performance tool_name perf' }

/-- `ToolRegistry.execute_tool`: graceful not-found result for an unknown
name; a failed result with message `"Input validation failed"` (and no
bookkeeping) when validation rejects; otherwise run the tool, and — for a
normal return as well as for a raised fault — update the tool's metadata and
the registry's performance record exactly once. A fault is converted into a
failed `ToolResult` carrying the fault's description. -/
def execute_tool (s : ToolRegistry) (tool_name query : String)
    (context : QueryContext) (now : ℚ) : ToolResult × ToolRegistry :=
  match dictGet s.tools tool_name with
  | none =>
    ({ tool_name := tool_name, success := false, results := [], sources := [],
       confidence := 0, response_time := 0,
       error_message := some ("Tool " ++ tool_name ++ " not found") }, s)
  | some tool =>
    if ¬ tool.validate query context then
      ({ tool_name := tool_name, success := false, results := [], sources := [],
         confidence := 0, response_time := 0,
         error_message := some "Input validation failed" }, s)
    else
      match tool.execu query context with
      | (Except.ok result, response_time) =>
        let tool' := { tool with
          metadata := tool.metadata.update_metrics result.success response_time now }
        let s' := { s with tools := dictSet s.tools tool_name tool' }
        let s'' := s'.update_performance_tracking tool_name result.success
          response_time none now
        (result, s'')
      | (Except.error e, response_time) =>
        let tool' := { tool with
          metadata := tool.metadata.update_metrics false response_time now }
        let s' := { s with tools := dictSet s.tools tool_name tool' }
        let s'' := s'.update_performance_tracking tool_name false response_time
          (some e) now
        ({ tool_name := tool_name, success := false, results := [],
           sources := [], confidence := 0, response_time := response_time,
           error_message := some e }, s'')

end ToolRegistry

/-- The `AgentResponse` dataclass of `agent_orchestrator.py`. One entry of
the `tool_results` dict is either a completed `ToolResult` or the
`{"error": ..., "success": False}` placeholder recorded for a failed unit;
see `ExecEntry`. -/
inductive ExecEntry where
  | done (r : ToolResult)
  | failed (msg : String)
  deriving DecidableEq, Repr

/-- Python `result.get("success", False)` on a results-dict entry. -/
def ExecEntry.successFlag : ExecEntry → Bool
  | .done r => r.success
  | .failed _ => false

/-- Python `result.get("results", [])` on a results-dict entry. -/
def ExecEntry.records : ExecEntry → List ResultRecord
  | .done r => r.results
  | .failed _ => []

/-- Python `result.get("sources", [])` on a results-dict entry. -/
def ExecEntry.sourceList : ExecEntry → List String
  | .done r => r.sources
  | .failed _ => []

/-- The `tool_results` mapping produced by one parallel batch. -/
abbrev ToolResults := List (String × ExecEntry)

/-- The response object returned to the caller. -/
structure AgentResponse where
  content : String
  confidence : ℚ
  sources : List String
  tool_results : ToolResults
  processing_time : ℚ
  language : String
  requires_clarification : Bool := false
  clarification_questions : Option (List String) := none
  deriving DecidableEq, Repr

/-- The external collaborators consumed by the orchestration loop. Their
implementations (`quality_assessor.py`, the translator) are not part of the
verified core; they are modelled as total functions with the call signatures
the loop uses. -/
structure Collab where
  assessResults : String → ToolResults → ℚ
  calcConfidence : String → String → List ResultRecord → ℚ
  identifyMissing : String → ToolResults → List String
  translateFromEnglish : String → String → String

namespace Orchestrator

/-- `AgentOrchestrator._select_tools`: a fixed, registry-independent rule.
Always `vector_search`; `web_search` when the `web_search_enabled` preference
holds (default true); always `rerank`; plus two query-type specific names for
troubleshooting / comparison / performance queries. -/
def select_tools (context : QueryContext) : List String :=
  let tool_selection := ["vector_search"]
  let tool_selection :=
    if context.user_preferences.web_search_enabled then
      tool_selection ++ ["web_search"]
    else tool_selection
  let tool_selection := tool_selection ++ ["rerank"]
  match context.query_type with
  | .troubleshooting => tool_selection ++ ["error_analyzer", "solution_finder"]
  | .comparison => tool_selection ++ ["service_comparator", "feature_analyzer"]
  | .performance => tool_selection ++ ["performance_analyzer", "optimization_advisor"]
  | _ => tool_selection

/-- Convert one submitted unit's outcome into its results-dict entry: a
normal return is stored as-is, a raised fault is caught and stored as the
error placeholder. -/
def entryOf : Except String ToolResult → ExecEntry
  | Except.ok r => ExecEntry.done r
  | Except.error e => ExecEntry.failed e

/-- `AgentOrchestrator._execute_tools_parallel`. Each requested name that
resolves in the registry is submitted as one unit whose completion latency is
the tool's modelled latency (exact for batches within the worker budget of 5).
Per-unit faults are caught and recorded as error placeholders, but the
`as_completed(..., timeout=...)` iterator raises `TimeoutError` as soon as the
global timeout elapses with a unit still pending, and nothing catches it: in
that case the call raises (modelled as `Except.error`), discarding every
already-collected entry. -/
def execute_tools_parallel (s : ToolRegistry) (context : QueryContext)
    (tool_names : List String) (task_timeout : ℚ) :
    Except String ToolResults :=
  let submitted := tool_names.filterMap (fun n =>
    (s.get_tool n).map (fun t => (n, t.execu context.query context)))
  if submitted.any (fun p => decide (task_timeout < p.2.2)) then
    Except.error "TimeoutError"
  else
    Except.ok (submitted.foldl (fun acc p => dictSet acc p.1 (entryOf p.2.1)) [])

/-- The fixed text of `_generate_no_results_response`. -/
def noResultsText : String :=
  "I couldn\x27t find specific information about your query in my knowledge base. This might be a very specific or new issue. Could you provide more details or try rephrasing your question?"

/-- `_generate_troubleshooting_response`: the joined parts list. -/
def troubleshootingContent (q : String) (results : List ResultRecord) : String :=
  "# Cloud Services Troubleshooting Guide\n" ++
  ("Based on your query: \x27" ++ q ++ "\x27\n\n") ++
  "## Troubleshooting Steps:\n" ++
  String.join ((results.take 5).enum.filterMap (fun p =>
    if p.2.content ≠ "" then
      some (toString (p.1 + 1) ++ ". " ++ p.2.content ++ "\n")
    else none)) ++
  "\n## Additional Resources:\n" ++
  String.join (results.filterMap (fun r =>
    match r.url with
    | some u =>
      if u ≠ "" then
        some ("- [" ++ r.title.getD "Resource" ++ "](" ++ u ++ ")\n")
      else none
    | none => none))

/-- `_generate_comparison_response`: the joined parts list. -/
def comparisonContent (q : String) (results : List ResultRecord) : String :=
  "# Cloud Services Comparison\n" ++
  ("Comparing services for: \x27" ++ q ++ "\x27\n\n") ++
  "## Service Comparison:\n" ++
  String.join ((results.take 3).filterMap (fun r =>
    if r.content ≠ "" then
      some ("### " ++ r.service.getD "Service" ++ "\n" ++ r.content ++ "\n\n")
    else none))

/-- `_generate_configuration_response`: the joined parts list. -/
def configurationContent (q : String) (results : List ResultRecord) : String :=
  "# Cloud Service Configuration Guide\n" ++
  ("Configuration steps for: \x27" ++ q ++ "\x27\n\n") ++
  "## Configuration Steps:\n" ++
  String.join ((results.take 5).enum.filterMap (fun p =>
    if p.2.content ≠ "" then
      some (toString (p.1 + 1) ++ ". " ++ p.2.content ++ "\n")
    else none)) ++
  "\n## Best Practices:\n" ++
  "- Always backup your configuration before making changes\n" ++
  "- Test changes in a development environment first\n" ++
  "- Monitor performance after configuration changes\n"

/-- `_generate_general_response`: the joined parts list. -/
def generalContent (q : String) (results : List ResultRecord) : String :=
  "# Cloud Services Information\n" ++
  ("Information about: \x27" ++ q ++ "\x27\n\n") ++
  String.join ((results.take 5).filterMap (fun r =>
    if r.content ≠ "" then some ("- " ++ r.content ++ "\n") else none))

/-- `AgentOrchestrator._generate_response_content`: the no-results fallback
text for an empty result list, else the query-type specific template. -/
def generate_response_content (context : QueryContext)
    (results : List ResultRecord) : String :=
  if results = [] then noResultsText
  else match context.query_type with
  | .troubleshooting => troubleshootingContent context.query results
  | .comparison => comparisonContent context.query results
  | .configuration => configurationContent context.query results
  | _ => generalContent context.query results

/-- `AgentOrchestrator._synthesize_response`: pool the successful entries'
records and sources, let a successful rerank entry override the pooled
records, generate content, obtain the confidence from the external assessor,
and translate the content for non-English contexts. `list(set(sources))` is
modelled as first-occurrence deduplication (CPython's set order is
unspecified; no verified property depends on this order). -/
def synthesize_response (c : Collab) (context : QueryContext)
    (tool_results : ToolResults) : AgentResponse :=
  let combined := tool_results.foldl (fun acc p =>
    if p.2.successFlag then acc ++ p.2.records else acc) []
  let sources := tool_results.foldl (fun acc p =>
    if p.2.successFlag then acc ++ p.2.sourceList else acc) []
  let combined :=
    match dictGet tool_results "rerank" with
    | some e => if e.successFlag then e.records else combined
    | none => combined
  let response_content := generate_response_content context combined
  let confidence := c.calcConfidence context.query response_content combined
  let response_content :=
    if context.language ≠ "en" then
      c.translateFromEnglish response_content context.language
    else response_content
  { content := response_content, confidence := confidence,
    sources := sources.eraseDups, tool_results := tool_results,
    processing_time := 0, language := context.language }

/-- The fixed text of `_create_fallback_response`. -/
def fallbackText : String :=
  "I\x27m having difficulty providing a comprehensive answer to your query. Could you please provide more specific details about your cloud service issue?"

/-- `AgentOrchestrator._create_fallback_response`: the fixed clarification
text (translated for non-English contexts), confidence 0.3, and
`requires_clarification = True`. -/
def create_fallback_response (c : Collab) (context : QueryContext) :
    AgentResponse :=
  let content :=
    if context.language ≠ "en" then
      c.translateFromEnglish fallbackText context.language
    else fallbackText
  { content := content, confidence := 3 / 10, sources := [],
    tool_results := [], processing_time := 0, language := context.language,
    requires_clarification := true }

/-- `AgentOrchestrator._refine_query`: the current query, a space, and the
space-joined missing aspects from the external assessor. -/
def refine_query (c : Collab) (context : QueryContext)
    (tool_results : ToolResults) : String :=
  context.query ++ " " ++
    String.intercalate " " (c.identifyMissing context.query tool_results)

/-- The best-response-so-far update of the loop body:
`if best_response is None or quality_score > best_response.confidence:
best_response = response`. Note that the comparison is between the
iteration's quality score and the stored response's confidence. -/
def updateBest (best : Option AgentResponse) (quality_score : ℚ)
    (response : AgentResponse) : Option AgentResponse :=
  match best with
  | none => some response
  | some b => if b.confidence < quality_score then some response else some b

/-- The body of `AgentOrchestrator._iterative_processing_loop`, with the
remaining iteration budget as fuel. The loop's `context` variable is one
shared mutable object: `context.query = await self._refine_query(...)`
overwrites its `query` field in place, so the context value threaded here is
the state of that single object. The returned triple is the response, the
final state of the shared context object, and the number of iterations
executed. A `TimeoutError` raised by the executor propagates
(`Except.error`). -/
def loopAux (c : Collab) (s : ToolRegistry) (threshold task_timeout : ℚ) :
    Nat → QueryContext → Option AgentResponse → Nat →
    Except String (AgentResponse × QueryContext × Nat)
  | 0, context, best, done =>
    Except.ok (best.getD (create_fallback_response c context), context, done)
  | Nat.succ fuel, context, best, done =>
    match execute_tools_parallel s context (select_tools context) task_timeout with
    | Except.error e => Except.error e
    | Except.ok tool_results =>
      let quality_score := c.assessResults context.query tool_results
      let response := synthesize_response c context tool_results
      if threshold ≤ quality_score then
        Except.ok (response, context, done + 1)
      else
        let best' := updateBest best quality_score response
        let context' := { context with query := refine_query c context tool_results }
        loopAux c s threshold task_timeout fuel context' best' (done + 1)

/-- `AgentOrchestrator._iterative_processing_loop`: run up to
`max_iterations` passes starting with no best response; on exhaustion return
`best_response or fallback`. -/
def iterative_processing_loop (c : Collab) (s : ToolRegistry)
    (max_iterations : Nat) (threshold task_timeout : ℚ)
    (context : QueryContext) :
    Except String (AgentResponse × QueryContext × Nat) :=
  loopAux c s threshold task_timeout max_iterations context none 0

/-- One pass of the loop's context mutation: the refined query is written
into the shared context object when the batch resolves (on a raised timeout
the loop aborts, so the value is irrelevant; we keep the context unchanged in
that branch). -/
def loopStepCtx (c : Collab) (s : ToolRegistry) (task_timeout : ℚ)
    (p : QueryContext) : QueryContext :=
  match execute_tools_parallel s p (select_tools p) task_timeout with
  | Except.error _ => p
  | Except.ok tool_results => { p with query := refine_query c p tool_results }

/-- The state of the shared context object at the start of iteration `n`
(0-based). -/
def traceCtx (c : Collab) (s : ToolRegistry) (task_timeout : ℚ)
    (context : QueryContext) : Nat → QueryContext
  | 0 => context
  | n + 1 => loopStepCtx c s task_timeout (traceCtx c s task_timeout context n)

/-- The executor outcome of iteration `n` (0-based). -/
def traceExec (c : Collab) (s : ToolRegistry) (task_timeout : ℚ)
    (context : QueryContext) (n : Nat) : Except String ToolResults :=
  let p := traceCtx c s task_timeout context n
  execute_tools_parallel s p (select_tools p) task_timeout

/-- The results dict of iteration `n` (0-based; `[]` in the unreachable
raised case). -/
def traceResults (c : Collab) (s : ToolRegistry) (task_timeout : ℚ)
    (context : QueryContext) (n : Nat) : ToolResults :=
  match traceExec c s task_timeout context n with
  | Except.ok tr => tr
  | Except.error _ => []

/-- The quality score the external assessor returns in iteration `n`. -/
def traceQuality (c : Collab) (s : ToolRegistry) (task_timeout : ℚ)
    (context : QueryContext) (n : Nat) : ℚ :=
  c.assessResults (traceCtx c s task_timeout context n).query
    (traceResults c s task_timeout context n)

/-- The candidate response synthesized in iteration `n`. -/
def traceCand (c : Collab) (s : ToolRegistry) (task_timeout : ℚ)
    (context : QueryContext) (n : Nat) : AgentResponse :=
  synthesize_response c (traceCtx c s task_timeout context n)
    (traceResults c s task_timeout context n)

/-- Fold the loop's best-response replacement rule over the first `n`
iterations of the trace, starting from `b0`. -/
def bestFoldFrom (c : Collab) (s : ToolRegistry) (task_timeout : ℚ)
    (context : QueryContext) (b0 : Option AgentResponse) (n : Nat) :
    Option AgentResponse :=
  (List.range n).foldl (fun b i =>
    updateBest b (traceQuality c s task_timeout context i)
      (traceCand c s task_timeout context i)) b0

/-- The best response retained after `n` non-accepting iterations, folding
the loop's replacement rule over the iteration trace. -/
def bestFold (c : Collab) (s : ToolRegistry) (task_timeout : ℚ)
    (context : QueryContext) (n : Nat) : Option AgentResponse :=
  bestFoldFrom c s task_timeout context none n

/-- The final state of the shared context object after a loop run: the
context component of a normal return, or the starting context when the run
aborted with a raised timeout (the object is handed back unchanged past the
`except` at the top level). -/
def finalCtxOf (out : Except String (AgentResponse × QueryContext × Nat))
    (context : QueryContext) : QueryContext :=
  match out with
  | Except.ok t => t.2.1
  | Except.error _ => context

/-- The query-type specific tail of `_select_tools`. -/
def typeSpecificTools : QueryType → List String
  | .troubleshooting => ["error_analyzer", "solution_finder"]
  | .comparison => ["service_comparator", "feature_analyzer"]
  | .performance => ["performance_analyzer", "optimization_advisor"]
  | _ => []

end Orchestrator

/-- Decidable equality of outcomes, for evaluating concrete runs. -/
instance {e a : Type} [DecidableEq e] [DecidableEq a] :
    DecidableEq (Except e a) := fun x y =>
  match x, y with
  | Except.ok v, Except.ok w =>
    if h : v = w then isTrue (by rw [h])
    else isFalse (by intro hc; cases hc; exact h rfl)
  | Except.error v, Except.error w =>
    if h : v = w then isTrue (by rw [h])
    else isFalse (by intro hc; cases hc; exact h rfl)
  | Except.ok _, Except.error _ => isFalse (by intro hc; cases hc)
  | Except.error _, Except.ok _ => isFalse (by intro hc; cases hc)

/-- Specification-side restatement of the performance score, following the
spec's wording: `0.5·successRate + 0.3·(1/(1+avgLatency)) +
0.2·min(1, usageCount/10)`. -/
def specPerformanceScore (m : ToolMetadata) : ℚ :=
  (1 / 2) * m.success_rate + (3 / 10) * (1 / (1 + m.average_response_time)) +
    (1 / 5) * min 1 ((m.usage_count : ℚ) / 10)

/-- Specification-side restatement of the performance strategy, following the
spec's wording: score exactly the tools whose `validate` accepts, in
registration order, with the spec's formula; stable-sort descending; return
the top `max_tools` names. -/
def specSelectByPerformance (s : ToolRegistry) (query : String)
    (context : QueryContext) (max_tools : Nat) : List String :=
  let scored := s.tools.filterMap (fun p =>
    if p.2.validate query context then some (p.1, specPerformanceScore p.2.metadata)
    else none)
  ((stableSortDesc (fun x => x.2) scored).take max_tools).map (fun x => x.1)

/-- One registry operation of the register/unregister interface. -/
inductive RegOp where
  | reg (t : Tool)
  | unreg (name : String)

/-- Apply one operation to the registry state. -/
def applyOp (s : ToolRegistry) : RegOp → ToolRegistry
  | .reg t => (s.register_tool t).2
  | .unreg n => (s.unregister_tool n).2

/-- Apply a sequence of operations, oldest first. -/
def applyOps (s : ToolRegistry) (ops : List RegOp) : ToolRegistry :=
  ops.foldl applyOp s

/-- A register step keeps a previously registered name's category (the
re-registration pattern under which the category index stays consistent);
unregister steps are unrestricted. -/
def opOk (s : ToolRegistry) : RegOp → Bool
  | .reg t =>
    match dictGet s.tools t.name with
    | some t0 => t0.category == t.category
    | none => true
  | .unreg _ => true

/-- Every operation of the sequence is `opOk` in the state it is applied
to. -/
def opsOk (s : ToolRegistry) : List RegOp → Bool
  | [] => true
  | op :: rest => opOk s op && opsOk (applyOp s op) rest

/-- The keys of an association-list dict are pairwise distinct. -/
def keysNodup {V : Type} (d : List (String × V)) : Prop :=
  (d.map Prod.fst).Nodup

/-- Consistency of the category index with the authoritative tool map: every
registered tool is stored under its own name and appears in the bucket of its
current category; every bucket is nonempty, duplicate-free, and contains only
names of registered tools whose current category is that bucket's key (so a
name appears in no other bucket, and an unregistered name appears in no
bucket at all). -/
def CatConsistent (s : ToolRegistry) : Prop :=
  (∀ n t, dictGet s.tools n = some t → t.name = n ∧
    ∃ b, dictGet s.tool_categories t.category = some b ∧ n ∈ b) ∧
  (∀ c b, dictGet s.tool_categories c = some b →
    b ≠ [] ∧ b.Nodup ∧
    ∀ n, n ∈ b → ∃ t, dictGet s.tools n = some t ∧ t.category = c)

/-- The registry invariant: unique keys in the tool map and category index,
plus category-index consistency. -/
def RegInv (s : ToolRegistry) : Prop :=
  keysNodup s.tools ∧ keysNodup s.tool_categories ∧ CatConsistent s

/-- Repeated `execute_tool` calls against one tool with fixed arguments. -/
def iterateFailures (name query : String) (context : QueryContext) (now : ℚ) :
    Nat → ToolRegistry → ToolRegistry
  | 0, s => s
  | n + 1, s =>
    (ToolRegistry.execute_tool (iterateFailures name query context now n s)
      name query context now).2

/-- Placeholder behaviour for tools whose `execute` body is never invoked by
any verified statement: every selection strategy reads only a tool's name,
description, category, metadata and `validate`. -/
def unusedExec : String → QueryContext → Except String ToolResult × ℚ :=
  fun _ _ => (Except.error "execute not exercised", 0)

/-- `VectorSearchTool.validate_input`: non-blank query containing one of the
fixed cloud keywords as a substring of its lowercasing. -/
def vectorValidate (query : String) (_context : QueryContext) : Bool :=
  if pyBlank query then false
  else ["aws", "azure", "cloud", "ec2", "s3", "lambda", "vm", "storage",
    "compute"].any (fun kw => strContains (pyLower query) kw)

/-- `WebSearchTool.validate_input`: non-blank query, the `web_search_enabled`
preference on, and either a cloud-related keyword or a real-time indicator
occurring in the lowercased query. -/
def webValidate (query : String) (context : QueryContext) : Bool :=
  if pyBlank query then false
  else if context.user_preferences.web_search_enabled = false then false
  else
    let ql := pyLower query
    let needs_real_time := ["latest", "new", "recent", "current", "updated",
      "pricing", "cost", "announcement", "release", "version", "status",
      "outage"].any (fun kw => strContains ql kw)
    let cloud_related := ["aws", "azure", "cloud", "google cloud", "gcp"].any
      (fun kw => strContains ql kw)
    cloud_related || needs_real_time

/-- `VectorSearchTool` registration fields (`vector_search.py`). -/
def vectorSearchTool : Tool :=
  { name := "vector_search",
    description := "Search cloud services knowledge base using semantic similarity",
    category := "search", validate := vectorValidate, execu := unusedExec }

/-- `WebSearchTool` registration fields (`web_search.py`). -/
def webSearchTool : Tool :=
  { name := "web_search",
    description := "Search the web for real-time cloud service information using Firecrawl API",
    category := "search", validate := webValidate, execu := unusedExec }

/-- Modelled from the spec: `TranslationTool`, whose source file
(`translate.py`) is missing from the tree; the orchestrator registers it as
one of the four startup tools. It is given the `BaseTool` default validation
(non-blank query). Its registered name, category and description are not
observable from the available sources; no verified statement depends on them
beyond this tool not carrying one of the query-type specific names used by
`_select_tools`. -/
def translationTool : Tool :=
  { name := "translation",
    description := "Translate text between languages",
    category := "translation", validate := fun q _ => !(pyBlank q),
    execu := unusedExec }

/-- Modelled from the spec: `RerankTool`, whose source file (`rerank.py`) is
missing from the tree. Its registered name is `rerank` (the orchestrator
addresses its batch entry as `tool_results["rerank"]` and selects it by that
name); it is given the `BaseTool` default validation. -/
def rerankTool : Tool :=
  { name := "rerank",
    description := "Rerank search results for better relevance",
    category := "ranking", validate := fun q _ => !(pyBlank q),
    execu := unusedExec }

/-- The registry produced by `AgentOrchestrator._initialize_tools`: the four
startup tools registered in order. -/
def initRegistry : ToolRegistry :=
  ((((ToolRegistry.empty.register_tool vectorSearchTool).2.register_tool
    webSearchTool).2.register_tool translationTool).2.register_tool
    rerankTool).2

/-- A troubleshooting-type context over a cloud query, used as the concrete
input of several statements. -/
def ctxC1 : QueryContext :=
  { user_id := "u1", thread_id := "t1", query := "aws ec2 instance slow",
    language := "en", query_type := QueryType.troubleshooting,
    confidence_score := 1 / 2, domain_relevance := 9 / 10,
    session_history := [], user_preferences := {} }

/-- Collaborator stub: quality score constantly 0.1, candidate confidence
constantly 0.5, no missing aspects, identity translator. -/
def collabConst : Collab :=
  { assessResults := fun _ _ => 1 / 10,
    calcConfidence := fun _ _ _ => 1 / 2,
    identifyMissing := fun _ _ => [],
    translateFromEnglish := fun t _ => t }

/-- Collaborator stub: quality score constantly 0.1 and iteration-dependent
candidate confidences 0.2, 0.5, 0.4 (the confidence depends on the refined
query's length, which grows by one character per iteration). -/
def collabC3 : Collab :=
  { assessResults := fun _ _ => 1 / 10,
    calcConfidence := fun q _ _ =>
      if q.length = 7 then 1 / 5 else if q.length = 8 then 1 / 2 else 2 / 5,
    identifyMissing := fun _ _ => [],
    translateFromEnglish := fun t _ => t }

/-- Collaborator stub: quality score constantly 0.9. -/
def collabC6 : Collab :=
  { assessResults := fun _ _ => 9 / 10,
    calcConfidence := fun _ _ _ => 3 / 5,
    identifyMissing := fun _ _ => [],
    translateFromEnglish := fun t _ => t }

/-- A general-inquiry context with the 7-character query `"aws ec2"`, used as
the concrete starting context of the loop runs. -/
def ctxLoop : QueryContext :=
  { user_id := "u1", thread_id := "t1", query := "aws ec2", language := "en",
    query_type := QueryType.general_inquiry, confidence_score := 1 / 2,
    domain_relevance := 9 / 10, session_history := [],
    user_preferences := {} }

/-- A tool that accepts every input and always raises `"boom"` after 2
seconds. -/
def failingTool : Tool :=
  { name := "flaky", description := "always fails", category := "search",
    validate := fun _ _ => true,
    execu := fun _ _ => (Except.error "boom", 2) }

/-- Registry with only the always-failing tool. -/
def sC7 : ToolRegistry := (ToolRegistry.empty.register_tool failingTool).2

/-- The result the rejecting tool would return if it were ever run. -/
def pickyResult : ToolResult :=
  { tool_name := "picky", success := true, results := [], sources := [],
    confidence := 1, response_time := 1 }

/-- A tool whose validation rejects every input. -/
def rejectingTool : Tool :=
  { name := "picky", description := "rejects everything", category := "search",
    validate := fun _ _ => false,
    execu := fun _ _ => (Except.ok pickyResult, 1) }

/-- Registry with only the rejecting tool. -/
def sC10 : ToolRegistry := (ToolRegistry.empty.register_tool rejectingTool).2

/-- The fast tool's result. -/
def fastResult : ToolResult :=
  { tool_name := "fast", success := true, results := [], sources := [],
    confidence := 1, response_time := 1 }

/-- A tool completing successfully after 1 second. -/
def fastTool : Tool :=
  { name := "fast", description := "fast tool", category := "search",
    validate := fun _ _ => true,
    execu := fun _ _ => (Except.ok fastResult, 1) }

/-- A tool completing successfully after 31 seconds — longer than the 30
second batch timeout. -/
def slowResult : ToolResult :=
  { tool_name := "slow", success := true, results := [], sources := [],
    confidence := 1, response_time := 31 }

/-- A tool completing successfully after 31 seconds (see above). -/
def slowTool : Tool :=
  { name := "slow", description := "slow tool", category := "search",
    validate := fun _ _ => true,
    execu := fun _ _ => (Except.ok slowResult, 31) }

/-- Registry with the fast and the slow tool. -/
def sC2 : ToolRegistry :=
  ((ToolRegistry.empty.register_tool fastTool).2.register_tool slowTool).2

/-- First registration of the name `alpha`, under category `c1`. -/
def toolAlphaC1 : Tool :=
  { name := "alpha", description := "alpha tool", category := "c1",
    validate := fun _ _ => true, execu := unusedExec }

/-- Re-registration of the name `alpha`, now under category `c2`. -/
def toolAlphaC2 : Tool :=
  { name := "alpha", description := "alpha tool", category := "c2",
    validate := fun _ _ => true, execu := unusedExec }

/-- Registry after registering `alpha` under `c1` and re-registering it under
`c2`. -/
def sC5 : ToolRegistry :=
  ((ToolRegistry.empty.register_tool toolAlphaC1).2.register_tool
    toolAlphaC2).2

/-- Used metadata for the first sample tool. -/
def metaPerfA : ToolMetadata :=
  { usage_count := 4, success_rate := 1 / 2, average_response_time := 1 }

/-- A validated tool with a used metadata record. -/
def toolPerfA : Tool :=
  { name := "pa", description := "alpha search", category := "search",
    validate := fun _ _ => true, execu := unusedExec, metadata := metaPerfA }

/-- Used metadata for the rejecting sample tool. -/
def metaPerfB : ToolMetadata :=
  { usage_count := 20, success_rate := 1, average_response_time := 0 }

/-- A tool whose validation rejects every input (for exclusion statements). -/
def toolPerfB : Tool :=
  { name := "pb", description := "beta search", category := "search",
    validate := fun _ _ => false, execu := unusedExec, metadata := metaPerfB }

/-- A second validated tool with fresh metadata. -/
def toolPerfC : Tool :=
  { name := "pc", description := "gamma search", category := "search",
    validate := fun _ _ => true, execu := unusedExec }

/-- Registry with the three performance-selection sample tools. -/
def sC8 : ToolRegistry :=
  (((ToolRegistry.empty.register_tool toolPerfA).2.register_tool
    toolPerfB).2.register_tool toolPerfC).2

/-- A sample operation sequence in which no name is re-registered under a
different category. -/
def opsW : List RegOp :=
  [RegOp.reg toolAlphaC1, RegOp.reg toolPerfA, RegOp.unreg "alpha"]

/-- Two contexts agree on every field except possibly the query text. -/
def sameButQuery (a b : QueryContext) : Prop :=
  a.user_id = b.user_id ∧ a.thread_id = b.thread_id ∧
  a.language = b.language ∧ a.query_type = b.query_type ∧
  a.confidence_score = b.confidence_score ∧
  a.domain_relevance = b.domain_relevance ∧
  a.session_history = b.session_history ∧
  a.user_preferences = b.user_preferences

/-! ### Dictionary lemmas -/

theorem dictGet_set_self {V : Type} (d : List (String × V)) (k : String)
    (v : V) : dictGet (dictSet d k v) k = some v := by
  induction d with
  | nil => simp [dictSet, dictGet]
  | cons p rest ih =>
    obtain ⟨k1, v1⟩ := p
    by_cases h : k1 = k
    · simp [dictSet, h, dictGet]
    · simp [dictSet, h, dictGet, ih]

theorem dictGet_set_ne {V : Type} (d : List (String × V)) (k k' : String)
    (v : V) (h : k' ≠ k) : dictGet (dictSet d k v) k' = dictGet d k' := by
  induction d with
  | nil => simp only [dictSet, dictGet, if_neg (Ne.symm h)]
  | cons p rest ih =>
    obtain ⟨k1, v1⟩ := p
    by_cases h1 : k1 = k
    · subst h1
      simp only [dictSet, if_pos rfl, dictGet, if_neg (Ne.symm h)]
    · simp only [dictSet, if_neg h1, dictGet, ih]

theorem dictDel_sublist {V : Type} (d : List (String × V)) (k : String) :
    (dictDel d k).Sublist d := by
  induction d with
  | nil => simp [dictDel]
  | cons p rest ih =>
    obtain ⟨k1, v1⟩ := p
    by_cases h : k1 = k
    · simp only [dictDel, if_pos h]
      exact List.sublist_cons_self (k1, v1) rest
    · simp only [dictDel, if_neg h]
      exact ih.cons₂ (k1, v1)

theorem dictGet_del_ne {V : Type} (d : List (String × V)) (k k' : String)
    (h : k' ≠ k) : dictGet (dictDel d k) k' = dictGet d k' := by
  induction d with
  | nil => simp [dictDel]
  | cons p rest ih =>
    obtain ⟨k1, v1⟩ := p
    by_cases h1 : k1 = k
    · subst h1
      simp [dictDel, dictGet, Ne.symm h]
    · simp only [dictDel, if_neg h1, dictGet, ih]

theorem dictGet_none_of_not_mem {V : Type} (d : List (String × V))
    (k : String) (h : k ∉ d.map Prod.fst) : dictGet d k = none := by
  induction d with
  | nil => simp [dictGet]
  | cons p rest ih =>
    obtain ⟨k1, v1⟩ := p
    simp only [List.map_cons, List.mem_cons] at h
    push_neg at h
    have hne : ¬ k1 = k := fun hh => h.1 hh.symm
    simp only [dictGet, if_neg hne]
    exact ih h.2

theorem dictGet_del_self {V : Type} (d : List (String × V)) (k : String)
    (h : keysNodup d) : dictGet (dictDel d k) k = none := by
  induction d with
  | nil => simp [dictDel, dictGet]
  | cons p rest ih =>
    obtain ⟨k1, v1⟩ := p
    simp only [keysNodup, List.map_cons, List.nodup_cons] at h
    by_cases h1 : k1 = k
    · subst h1
      simp only [dictDel, if_pos rfl]
      exact dictGet_none_of_not_mem rest k1 h.1
    · simp only [dictDel, if_neg h1, dictGet, if_neg h1]
      exact ih h.2

theorem mem_keys_set {V : Type} (d : List (String × V)) (k x : String)
    (v : V) : x ∈ (dictSet d k v).map Prod.fst ↔
      x = k ∨ x ∈ d.map Prod.fst := by
  induction d with
  | nil => simp [dictSet]
  | cons p rest ih =>
    obtain ⟨k1, v1⟩ := p
    by_cases h : k1 = k
    · subst h
      simp [dictSet]
    · simp only [dictSet, if_neg h, List.map_cons, List.mem_cons, ih]
      tauto

theorem keysNodup_set {V : Type} (d : List (String × V)) (k : String) (v : V)
    (h : keysNodup d) : keysNodup (dictSet d k v) := by
  induction d with
  | nil => simp [dictSet, keysNodup]
  | cons p rest ih =>
    obtain ⟨k1, v1⟩ := p
    simp only [keysNodup, List.map_cons, List.nodup_cons] at h
    by_cases h1 : k1 = k
    · subst h1
      have hs : dictSet ((k1, v1) :: rest) k1 v = (k1, v) :: rest := by
        simp [dictSet]
      rw [hs]
      simp only [keysNodup, List.map_cons, List.nodup_cons]
      exact h
    · simp only [dictSet, if_neg h1, keysNodup, List.map_cons,
        List.nodup_cons]
      refine ⟨?_, ih h.2⟩
      intro hmem
      rcases (mem_keys_set rest k k1 v).mp hmem with h2 | h2
      · exact h1 h2
      · exact h.1 h2

theorem keysNodup_del {V : Type} (d : List (String × V)) (k : String)
    (h : keysNodup d) : keysNodup (dictDel d k) :=
  ((dictDel_sublist d k).map Prod.fst).nodup h

theorem mem_of_dictGet {V : Type} (d : List (String × V)) (k : String)
    (v : V) (h : dictGet d k = some v) : (k, v) ∈ d := by
  induction d with
  | nil => simp [dictGet] at h
  | cons p rest ih =>
    obtain ⟨k1, v1⟩ := p
    simp only [dictGet] at h
    by_cases h1 : k1 = k
    · rw [if_pos h1] at h
      injection h with hv
      subst h1
      subst hv
      exact List.mem_cons_self _ _
    · rw [if_neg h1] at h
      exact List.mem_cons_of_mem _ (ih h)

theorem dictGet_isSome_of_mem {V : Type} (d : List (String × V))
    (k : String) (v : V) (h : (k, v) ∈ d) : (dictGet d k).isSome = true := by
  induction d with
  | nil => simp at h
  | cons p rest ih =>
    obtain ⟨k1, v1⟩ := p
    by_cases h2 : k1 = k
    · simp [dictGet, h2]
    · simp only [dictGet, if_neg h2]
      rcases List.mem_cons.mp h with h1 | h1
      · injection h1 with ha hb
        exact absurd ha.symm h2
      · exact ih h1

theorem dictGet_of_mem_nodup {V : Type} (d : List (String × V)) (k : String)
    (v : V) (hd : keysNodup d) (h : (k, v) ∈ d) : dictGet d k = some v := by
  induction d with
  | nil => simp at h
  | cons p rest ih =>
    obtain ⟨k1, v1⟩ := p
    simp only [keysNodup, List.map_cons, List.nodup_cons] at hd
    rcases List.mem_cons.mp h with h1 | h1
    · injection h1 with ha hb
      subst ha
      subst hb
      simp [dictGet]
    · have hk : k1 ≠ k := by
        intro hc
        subst hc
        exact hd.1 (List.mem_map.mpr ⟨(k1, v), h1, rfl⟩)
      simp only [dictGet, if_neg hk]
      exact ih hd.2 h1

/-! ### Stable-sort lemmas -/

theorem mem_insertDesc {α : Type} (key : α → ℚ) (x a : α) (l : List α) :
    a ∈ insertDesc key x l ↔ a = x ∨ a ∈ l := by
  induction l with
  | nil => simp [insertDesc]
  | cons y ys ih =>
    by_cases h : key x ≤ key y
    · simp only [insertDesc, if_pos h, List.mem_cons, ih]
      tauto
    · simp only [insertDesc, if_neg h, List.mem_cons]

theorem mem_foldl_insertDesc {α : Type} (key : α → ℚ) (l : List α) :
    ∀ (acc : List α) (a : α),
      a ∈ l.foldl (fun ac x => insertDesc key x ac) acc ↔ a ∈ acc ∨ a ∈ l := by
  induction l with
  | nil => simp
  | cons y ys ih =>
    intro acc a
    simp only [List.foldl_cons, ih, mem_insertDesc, List.mem_cons]
    tauto

theorem mem_stableSortDesc {α : Type} (key : α → ℚ) (l : List α) (a : α) :
    a ∈ stableSortDesc key l ↔ a ∈ l := by
  simp [stableSortDesc, mem_foldl_insertDesc]

/-- Congruence for `filterMap` under pointwise agreement on the list. -/
theorem filterMap_congr_on {α β : Type} (f g : α → Option β) (l : List α)
    (h : ∀ a ∈ l, f a = g a) : l.filterMap f = l.filterMap g := by
  induction l with
  | nil => rfl
  | cons x xs ih =>
    simp only [List.filterMap_cons, h x (List.mem_cons_self x xs)]
    rw [ih (fun a ha => h a (List.mem_cons_of_mem x ha))]

/-! ### Selection lemmas -/

theorem mem_validate_scored (tools : List (String × Tool)) (q : String)
    (ctx : QueryContext) (g : String × Tool → ℚ) (k : Nat) (n : String)
    (h : n ∈ ((stableSortDesc (fun x => x.2) (tools.filterMap (fun p =>
      if p.2.validate q ctx then some (p.1, g p) else none))).take k).map
      (fun x => x.1)) :
    ∃ t, (n, t) ∈ tools ∧ t.validate q ctx = true := by
  rcases List.mem_map.mp h with ⟨x, hx, hxn⟩
  have hx2 := List.mem_of_mem_take hx
  rw [mem_stableSortDesc] at hx2
  rcases List.mem_filterMap.mp hx2 with ⟨p, hp, hpe⟩
  obtain ⟨pn, pt⟩ := p
  by_cases hv : pt.validate q ctx
  · rw [if_pos hv] at hpe
    injection hpe with h1
    refine ⟨pt, ?_, hv⟩
    have h2 : pn = n := by rw [← h1] at hxn; exact hxn
    rwa [h2] at hp
  · rw [if_neg hv] at hpe
    cases hpe

theorem mem_select_by_performance (s : ToolRegistry) (q : String)
    (ctx : QueryContext) (k : Nat) (n : String)
    (h : n ∈ s.select_by_performance q ctx k) :
    ∃ t, (n, t) ∈ s.tools ∧ t.validate q ctx = true :=
  mem_validate_scored s.tools q ctx (fun p => ToolRegistry.performanceScore p.2.metadata) k n h

theorem mem_select_by_relevance (s : ToolRegistry) (q : String)
    (ctx : QueryContext) (k : Nat) (n : String)
    (h : n ∈ s.select_by_relevance q ctx k) :
    ∃ t, (n, t) ∈ s.tools ∧ t.validate q ctx = true :=
  mem_validate_scored s.tools q ctx (fun p => ToolRegistry.relevanceScore q p.2.description) k n h

theorem mem_cat_fold_inner (q : String) (ctx : QueryContext) (k : Nat)
    (ts : List Tool) :
    ∀ (acc : List String) (n : String),
      n ∈ ts.foldl (fun acc2 t =>
        if k ≤ acc2.length then acc2
        else if t.validate q ctx then acc2 ++ [t.name] else acc2) acc →
      n ∈ acc ∨ ∃ t, t ∈ ts ∧ n = t.name ∧ t.validate q ctx = true := by
  induction ts with
  | nil => intro acc n h; exact Or.inl h
  | cons t ts ih =>
    intro acc n h
    simp only [List.foldl_cons] at h
    rcases ih _ n h with h1 | h1
    · by_cases hk : k ≤ acc.length
      · rw [if_pos hk] at h1
        exact Or.inl h1
      · rw [if_neg hk] at h1
        by_cases hv : t.validate q ctx
        · rw [if_pos hv] at h1
          rcases List.mem_append.mp h1 with h2 | h2
          · exact Or.inl h2
          · have h3 := List.mem_singleton.mp h2
            exact Or.inr ⟨t, List.mem_cons_self t ts, h3, hv⟩
        · rw [if_neg hv] at h1
          exact Or.inl h1
    · rcases h1 with ⟨t1, ht1, hn, hv⟩
      exact Or.inr ⟨t1, List.mem_cons_of_mem t ht1, hn, hv⟩

theorem mem_cat_fold_outer (s : ToolRegistry) (q : String)
    (ctx : QueryContext) (k : Nat) (cs : List String) :
    ∀ (acc : List String) (n : String),
      n ∈ cs.foldl (fun acc c =>
        (s.get_tools_by_category c).foldl (fun acc2 t =>
          if k ≤ acc2.length then acc2
          else if t.validate q ctx then acc2 ++ [t.name] else acc2) acc) acc →
      n ∈ acc ∨ ∃ t c, t ∈ s.get_tools_by_category c ∧ n = t.name ∧
        t.validate q ctx = true := by
  induction cs with
  | nil => intro acc n h; exact Or.inl h
  | cons c cs ih =>
    intro acc n h
    simp only [List.foldl_cons] at h
    rcases ih _ n h with h1 | h1
    · rcases mem_cat_fold_inner q ctx k (s.get_tools_by_category c) acc n h1 with h2 | h2
      · exact Or.inl h2
      · rcases h2 with ⟨t, ht, hn, hv⟩
        exact Or.inr ⟨t, c, ht, hn, hv⟩
    · exact Or.inr h1

theorem mem_get_tools_by_category (s : ToolRegistry) (c : String)
    (t : Tool) (h : t ∈ s.get_tools_by_category c) :
    ∃ nk, dictGet s.tools nk = some t := by
  rcases List.mem_filterMap.mp h with ⟨nk, hnk, hget⟩
  exact ⟨nk, hget⟩

theorem mem_select_by_category (s : ToolRegistry) (q : String)
    (ctx : QueryContext) (k : Nat) (n : String)
    (h : n ∈ s.select_by_category q ctx k) :
    ∃ nk t, dictGet s.tools nk = some t ∧ n = t.name ∧
      t.validate q ctx = true := by
  have h2 := List.mem_of_mem_take h
  rcases mem_cat_fold_outer s q ctx k _ [] n h2 with h3 | h3
  · simp at h3
  · rcases h3 with ⟨t, c, ht, hn, hv⟩
    rcases mem_get_tools_by_category s c t ht with ⟨nk, hget⟩
    exact ⟨nk, t, hget, hn, hv⟩

theorem dictMem_set_iff (d : List (String × ℚ)) (k n : String) (v : ℚ) :
    dictMem (dictSet d k v) n = true ↔ n = k ∨ dictMem d n = true := by
  by_cases h : n = k
  · subst h
    simp [dictMem, dictGet_set_self]
  · rw [dictMem, dictGet_set_ne d k n v h]
    simp [dictMem, h]

theorem mem_hybrid_fold {γ : Type} (f : γ → String) (g : γ → ℚ)
    (l : List γ) :
    ∀ (acc : List (String × ℚ)) (n : String),
      dictMem (l.foldl (fun a p => ToolRegistry.addScore a (f p) (g p)) acc) n = true →
      dictMem acc n = true ∨ ∃ p, p ∈ l ∧ n = f p := by
  induction l with
  | nil => intro acc n h; exact Or.inl h
  | cons p ps ih =>
    intro acc n h
    simp only [List.foldl_cons] at h
    rcases ih _ n h with h1 | h1
    · rcases (dictMem_set_iff acc (f p) n _).mp h1 with h2 | h2
      · exact Or.inr ⟨p, List.mem_cons_self p ps, h2⟩
      · exact Or.inl h2
    · rcases h1 with ⟨p1, hp1, hn⟩
      exact Or.inr ⟨p1, List.mem_cons_of_mem p hp1, hn⟩

theorem mem_enumFrom_snd {α : Type} (l : List α) :
    ∀ (i : Nat) (p : Nat × α), p ∈ l.enumFrom i → p.2 ∈ l := by
  induction l with
  | nil => intro i p h; simp [List.enumFrom] at h
  | cons a as ih =>
    intro i p h
    simp only [List.enumFrom, List.mem_cons] at h
    rcases h with h | h
    · subst h
      exact List.mem_cons_self a as
    · exact List.mem_cons_of_mem a (ih (i + 1) p h)

theorem mem_enum_snd {α : Type} (l : List α) (p : Nat × α)
    (h : p ∈ l.enum) : p.2 ∈ l :=
  mem_enumFrom_snd l 0 p h

theorem mem_select_hybrid (s : ToolRegistry) (q : String)
    (ctx : QueryContext) (k : Nat) (n : String)
    (h : n ∈ s.select_hybrid q ctx k) :
    n ∈ s.select_by_performance q ctx k ∨ n ∈ s.select_by_category q ctx k ∨
      n ∈ s.select_by_relevance q ctx k := by
  simp only [ToolRegistry.select_hybrid] at h
  rcases List.mem_map.mp h with ⟨x, hx, hxn⟩
  have hx2 := List.mem_of_mem_take hx
  rw [mem_stableSortDesc] at hx2
  obtain ⟨x1, x2⟩ := x
  have hmem := dictGet_isSome_of_mem _ x1 x2 hx2
  subst hxn
  rcases mem_hybrid_fold Prod.snd
    (fun (p : Nat × String) => (1 / 5 : ℚ) * ((k : ℚ) - (p.1 : ℚ)) / (k : ℚ))
    ((s.select_by_relevance q ctx k).enum) _ _ hmem with h1 | h1
  · rcases mem_hybrid_fold Prod.snd
      (fun (p : Nat × String) => (2 / 5 : ℚ) * ((k : ℚ) - (p.1 : ℚ)) / (k : ℚ))
      ((s.select_by_category q ctx k).enum) _ _ h1 with h2 | h2
    · rcases mem_hybrid_fold Prod.snd
        (fun (p : Nat × String) => (2 / 5 : ℚ) * ((k : ℚ) - (p.1 : ℚ)) / (k : ℚ))
        ((s.select_by_performance q ctx k).enum) _ _ h2 with h3 | h3
      · simp [dictMem, dictGet] at h3
      · rcases h3 with ⟨p, hp, hn⟩
        rw [hn]
        exact Or.inl (mem_enum_snd _ p hp)
    · rcases h2 with ⟨p, hp, hn⟩
      rw [hn]
      exact Or.inr (Or.inl (mem_enum_snd _ p hp))
  · rcases h1 with ⟨p, hp, hn⟩
    rw [hn]
    exact Or.inr (Or.inr (mem_enum_snd _ p hp))

/-- Every name any selection strategy returns is a key of the authoritative
tool map, provided every registered tool is stored under its own name (which
`register_tool` guarantees). -/
theorem select_tools_mem_tools (s : ToolRegistry) (q : String)
    (ctx : QueryContext) (strategy : String) (k : Nat) (n : String)
    (hnames : ∀ nk t, dictGet s.tools nk = some t → t.name = nk)
    (h : n ∈ s.select_tools q ctx strategy k) : dictMem s.tools n = true := by
  have hperf : ∀ m, m ∈ s.select_by_performance q ctx k → dictMem s.tools m = true := by
    intro m hm
    rcases mem_select_by_performance s q ctx k m hm with ⟨t, ht, _⟩
    exact dictGet_isSome_of_mem _ m t ht
  have hrel : ∀ m, m ∈ s.select_by_relevance q ctx k → dictMem s.tools m = true := by
    intro m hm
    rcases mem_select_by_relevance s q ctx k m hm with ⟨t, ht, _⟩
    exact dictGet_isSome_of_mem _ m t ht
  have hcat : ∀ m, m ∈ s.select_by_category q ctx k → dictMem s.tools m = true := by
    intro m hm
    rcases mem_select_by_category s q ctx k m hm with ⟨nk, t, hget, hn, _⟩
    rw [hn, hnames nk t hget]
    simp [dictMem, hget]
  have hhyb : ∀ m, m ∈ s.select_hybrid q ctx k → dictMem s.tools m = true := by
    intro m hm
    rcases mem_select_hybrid s q ctx k m hm with h1 | h1 | h1
    · exact hperf m h1
    · exact hcat m h1
    · exact hrel m h1
  simp only [ToolRegistry.select_tools] at h
  by_cases h1 : strategy = "performance"
  · rw [if_pos h1] at h
    exact hperf n h
  · rw [if_neg h1] at h
    by_cases h2 : strategy = "category"
    · rw [if_pos h2] at h
      exact hcat n h
    · rw [if_neg h2] at h
      by_cases h3 : strategy = "relevance"
      · rw [if_pos h3] at h
        exact hrel n h
      · rw [if_neg h3] at h
        exact hhyb n h

/-- The implementation's performance score equals the specification's
formula whenever the recorded mean latency is nonnegative. -/
theorem performanceScore_eq_spec (m : ToolMetadata)
    (h : 0 ≤ m.average_response_time) :
    ToolRegistry.performanceScore m = specPerformanceScore m := by
  unfold ToolRegistry.performanceScore specPerformanceScore
  rcases h.lt_or_eq with h1 | h1
  · rw [if_pos h1]
    ring
  · rw [if_neg (by rw [← h1]; exact lt_irrefl 0), ← h1]
    norm_num
    ring

/-! ### Registry invariant preservation -/

theorem RegInv_empty : RegInv ToolRegistry.empty := by
  refine ⟨?_, ?_, ?_, ?_⟩
  · simp [keysNodup, ToolRegistry.empty]
  · simp [keysNodup, ToolRegistry.empty]
  · intro n t h
    simp [ToolRegistry.empty, dictGet] at h
  · intro c b h
    simp [ToolRegistry.empty, dictGet] at h

theorem RegInv_register (s : ToolRegistry) (t : Tool) (h : RegInv s)
    (hok : opOk s (RegOp.reg t) = true) : RegInv (s.register_tool t).2 := by
  obtain ⟨hnt, hnc, hA, hB⟩ := h
  have hokc : ∀ t0, dictGet s.tools t.name = some t0 →
      t0.category = t.category := by
    intro t0 h0
    simp only [opOk, h0] at hok
    exact eq_of_beq hok
  have hsnd : (s.register_tool t).2 =
      { tools := dictSet s.tools t.name t,
        tool_categories := dictSet s.tool_categories t.category
          (if t.name ∈ (dictGet s.tool_categories t.category).getD [] then
            (dictGet s.tool_categories t.category).getD []
          else (dictGet s.tool_categories t.category).getD [] ++ [t.name]),
        tool_performance := dictSet s.tool_performance t.name
          PerfRecord.init } := rfl
  rw [hsnd]
  set b0 := (dictGet s.tool_categories t.category).getD [] with hb0def
  set bucket' := if t.name ∈ b0 then b0 else b0 ++ [t.name] with hbdef
  have hb0nd : b0.Nodup := by
    rw [hb0def]
    cases hc0 : dictGet s.tool_categories t.category with
    | none => simp
    | some b => simpa using (hB t.category b hc0).2.1
  have hmem' : t.name ∈ bucket' := by
    rw [hbdef]
    by_cases hm : t.name ∈ b0
    · rw [if_pos hm]
      exact hm
    · rw [if_neg hm]
      exact List.mem_append.mpr (Or.inr (List.mem_singleton.mpr rfl))
  have hsub : ∀ x, x ∈ b0 → x ∈ bucket' := by
    intro x hx
    rw [hbdef]
    by_cases hm : t.name ∈ b0
    · rw [if_pos hm]
      exact hx
    · rw [if_neg hm]
      exact List.mem_append.mpr (Or.inl hx)
  refine ⟨keysNodup_set _ _ _ hnt, keysNodup_set _ _ _ hnc, ?_, ?_⟩
  · intro n t1 hget
    by_cases hn : n = t.name
    · subst hn
      rw [dictGet_set_self] at hget
      injection hget with hget
      subst hget
      exact ⟨rfl, bucket', dictGet_set_self _ _ _, hmem'⟩
    · rw [dictGet_set_ne _ _ _ _ hn] at hget
      obtain ⟨hname, b1, hgetb1, hnb1⟩ := hA n t1 hget
      refine ⟨hname, ?_⟩
      by_cases hcat : t1.category = t.category
      · rw [hcat]
        refine ⟨bucket', dictGet_set_self _ _ _, ?_⟩
        apply hsub
        rw [hb0def]
        rw [hcat] at hgetb1
        rw [hgetb1]
        exact hnb1
      · rw [dictGet_set_ne _ _ _ _ hcat]
        exact ⟨b1, hgetb1, hnb1⟩
  · intro c b2 hget
    by_cases hc : c = t.category
    · subst hc
      rw [dictGet_set_self] at hget
      injection hget with hget
      subst hget
      refine ⟨?_, ?_, ?_⟩
      · exact List.ne_nil_of_mem hmem'
      · rw [hbdef]
        by_cases hm : t.name ∈ b0
        · rw [if_pos hm]
          exact hb0nd
        · rw [if_neg hm]
          rw [List.nodup_append]
          exact ⟨hb0nd, List.nodup_singleton _, by
            intro x hx hx2
            rw [List.mem_singleton.mp hx2] at hx
            exact hm hx⟩
      · intro n1 hn1
        by_cases hn : n1 = t.name
        · subst hn
          exact ⟨t, dictGet_set_self _ _ _, rfl⟩
        · have hn1b0 : n1 ∈ b0 := by
            rw [hbdef] at hn1
            by_cases hm : t.name ∈ b0
            · rwa [if_pos hm] at hn1
            · rw [if_neg hm] at hn1
              rcases List.mem_append.mp hn1 with h2 | h2
              · exact h2
              · exact absurd (List.mem_singleton.mp h2) hn
          cases hc0 : dictGet s.tool_categories t.category with
          | none =>
            rw [hb0def, hc0] at hn1b0
            simp at hn1b0
          | some b =>
            have hb0b : b0 = b := by rw [hb0def, hc0]; rfl
            rw [hb0b] at hn1b0
            obtain ⟨t1, hget1, hc1⟩ := (hB t.category b hc0).2.2 n1 hn1b0
            exact ⟨t1, by rwa [dictGet_set_ne _ _ _ _ hn], hc1⟩
    · rw [dictGet_set_ne _ _ _ _ hc] at hget
      obtain ⟨hne, hnd, hmem2⟩ := hB c b2 hget
      refine ⟨hne, hnd, ?_⟩
      intro n1 hn1
      obtain ⟨t1, hget1, hc1⟩ := hmem2 n1 hn1
      by_cases hn : n1 = t.name
      · subst hn
        exact absurd (hc1 ▸ hokc t1 hget1) hc
      · exact ⟨t1, by rwa [dictGet_set_ne _ _ _ _ hn], hc1⟩

theorem RegInv_unregister (s : ToolRegistry) (name : String)
    (h : RegInv s) : RegInv (s.unregister_tool name).2 := by
  obtain ⟨hnt, hnc, hA, hB⟩ := h
  cases hget : dictGet s.tools name with
  | none =>
    have : (s.unregister_tool name).2 = s := by
      simp [ToolRegistry.unregister_tool, hget]
    rw [this]
    exact ⟨hnt, hnc, hA, hB⟩
  | some tool =>
    obtain ⟨hname, b, hbkt, hnb⟩ := hA name tool hget
    obtain ⟨hbne, hbnd, hbmem⟩ := hB tool.category b hbkt
    have hbkt' : (if name ∈ b then b.erase name else b) = b.erase name := by
      rw [if_pos hnb]
    have hsnd : (s.unregister_tool name).2 =
        { tools := dictDel s.tools name,
          tool_categories :=
            if b.erase name = [] then dictDel s.tool_categories tool.category
            else dictSet s.tool_categories tool.category (b.erase name),
          tool_performance :=
            if dictMem s.tool_performance name then
              dictDel s.tool_performance name
            else s.tool_performance } := by
      simp only [ToolRegistry.unregister_tool, hget, hbkt, hbkt']
    rw [hsnd]
    have htool_ne : ∀ n1 t1 c1, dictGet s.tools n1 = some t1 →
        t1.category = c1 → c1 ≠ tool.category → n1 ≠ name := by
      intro n1 t1 c1 hget1 hc1 hcc hn
      subst hn
      rw [hget] at hget1
      injection hget1 with hget1
      subst hget1
      exact hcc (hc1.symm)
    constructor
    · exact keysNodup_del _ _ hnt
    constructor
    · by_cases he : b.erase name = []
      · rw [if_pos he]
        exact keysNodup_del _ _ hnc
      · rw [if_neg he]
        exact keysNodup_set _ _ _ hnc
    constructor
    · intro n t1 hget1
      have hn : n ≠ name := by
        intro hn
        subst hn
        rw [dictGet_del_self _ _ hnt] at hget1
        cases hget1
      rw [dictGet_del_ne _ _ _ hn] at hget1
      obtain ⟨hname1, b1, hgetb1, hnb1⟩ := hA n t1 hget1
      refine ⟨hname1, ?_⟩
      by_cases hcat : t1.category = tool.category
      · have hb1b : b1 = b := by
          rw [hcat] at hgetb1
          rw [hgetb1] at hbkt
          exact Option.some.inj hbkt
        have hmem1 : n ∈ b.erase name := by
          rw [hbnd.mem_erase_iff]
          exact ⟨hn, hb1b ▸ hnb1⟩
        have hene : b.erase name ≠ [] := List.ne_nil_of_mem hmem1
        rw [if_neg hene, hcat]
        exact ⟨b.erase name, dictGet_set_self _ _ _, hmem1⟩
      · by_cases he : b.erase name = []
        · rw [if_pos he, dictGet_del_ne _ _ _ hcat]
          exact ⟨b1, hgetb1, hnb1⟩
        · rw [if_neg he, dictGet_set_ne _ _ _ _ hcat]
          exact ⟨b1, hgetb1, hnb1⟩
    · intro c b2 hget2
      by_cases hc : c = tool.category
      · subst hc
        by_cases he : b.erase name = []
        · rw [if_pos he, dictGet_del_self _ _ hnc] at hget2
          cases hget2
        · rw [if_neg he, dictGet_set_self] at hget2
          injection hget2 with hget2
          subst hget2
          refine ⟨he, hbnd.erase name, ?_⟩
          intro n1 hn1
          rw [hbnd.mem_erase_iff] at hn1
          obtain ⟨t1, hget1, hc1⟩ := hbmem n1 hn1.2
          exact ⟨t1, by rwa [dictGet_del_ne _ _ _ hn1.1], hc1⟩
      · have hget2' : dictGet s.tool_categories c = some b2 := by
          by_cases he : b.erase name = []
          · rwa [if_pos he, dictGet_del_ne _ _ _ hc] at hget2
          · rwa [if_neg he, dictGet_set_ne _ _ _ _ hc] at hget2
        obtain ⟨hne2, hnd2, hmem2⟩ := hB c b2 hget2'
        refine ⟨hne2, hnd2, ?_⟩
        intro n1 hn1
        obtain ⟨t1, hget1, hc1⟩ := hmem2 n1 hn1
        have hn : n1 ≠ name := htool_ne n1 t1 c hget1 hc1 hc
        exact ⟨t1, by rwa [dictGet_del_ne _ _ _ hn], hc1⟩

theorem RegInv_applyOps : ∀ (ops : List RegOp) (s : ToolRegistry),
    RegInv s → opsOk s ops = true → RegInv (applyOps s ops) := by
  intro ops
  induction ops with
  | nil => intro s h _; exact h
  | cons op rest ih =>
    intro s h hops
    simp only [opsOk, Bool.and_eq_true] at hops
    have : applyOps s (op :: rest) = applyOps (applyOp s op) rest := rfl
    rw [this]
    refine ih (applyOp s op) ?_ hops.2
    cases op with
    | reg t => exact RegInv_register s t h hops.1
    | unreg nm => exact RegInv_unregister s nm h

/-! ### Execution bookkeeping lemmas -/

theorem update_performance_tracking_tools (s : ToolRegistry)
    (name : String) (success : Bool) (rt : ℚ) (err : Option String)
    (now : ℚ) :
    (s.update_performance_tracking name success rt err now).tools =
      s.tools := by
  simp only [ToolRegistry.update_performance_tracking]
  cases dictGet s.tool_performance name <;> rfl

theorem execute_tool_validation_rejected (s : ToolRegistry)
    (name q : String) (ctx : QueryContext) (now : ℚ) (tool : Tool)
    (ht : dictGet s.tools name = some tool)
    (hv : tool.validate q ctx = false) :
    ToolRegistry.execute_tool s name q ctx now =
      ({ tool_name := name, success := false, results := [], sources := [],
         confidence := 0, response_time := 0,
         error_message := some "Input validation failed" }, s) := by
  simp [ToolRegistry.execute_tool, ht, hv]

theorem execute_tool_fault (s : ToolRegistry) (name q : String)
    (ctx : QueryContext) (now : ℚ) (tool : Tool) (e : String) (rt : ℚ)
    (p : PerfRecord)
    (ht : dictGet s.tools name = some tool)
    (hv : tool.validate q ctx = true)
    (he : tool.execu q ctx = (Except.error e, rt))
    (hp : dictGet s.tool_performance name = some p) :
    (ToolRegistry.execute_tool s name q ctx now).1 =
      { tool_name := name, success := false, results := [], sources := [],
        confidence := 0, response_time := rt, error_message := some e } ∧
    dictGet (ToolRegistry.execute_tool s name q ctx now).2.tool_performance
        name =
      some { total_calls := p.total_calls + 1,
             successful_calls := p.successful_calls,
             failed_calls := p.failed_calls + 1,
             average_response_time :=
               (p.average_response_time * (p.total_calls : ℚ) + rt) /
                 ((p.total_calls : ℚ) + 1),
             last_used := some now,
             error_patterns := takeLast 10 (p.error_patterns ++ [(e, now)]) } ∧
    (∀ n2, n2 ≠ name →
      dictGet (ToolRegistry.execute_tool s name q ctx now).2.tool_performance
          n2 =
        dictGet s.tool_performance n2) ∧
    dictGet (ToolRegistry.execute_tool s name q ctx now).2.tools name =
      some { tool with metadata := tool.metadata.update_metrics false rt now } := by
  have hstep : ToolRegistry.execute_tool s name q ctx now =
      ({ tool_name := name, success := false, results := [], sources := [],
         confidence := 0, response_time := rt, error_message := some e },
       ToolRegistry.update_performance_tracking
         { s with tools := dictSet s.tools name { tool with metadata := tool.metadata.update_metrics false rt now } }
         name false rt (some e) now) := by
    simp [ToolRegistry.execute_tool, ht, hv, he]
  rw [hstep]
  have havg : (if p.total_calls + 1 = 1 then rt
      else (p.average_response_time * (((p.total_calls + 1 : Nat) : ℚ) - 1) + rt) /
        ((p.total_calls + 1 : Nat) : ℚ)) =
      (p.average_response_time * (p.total_calls : ℚ) + rt) /
        ((p.total_calls : ℚ) + 1) := by
    rcases Nat.eq_zero_or_pos p.total_calls with h0 | h0
    · rw [h0]
      norm_num
    · rw [if_neg (by omega)]
      push_cast
      ring_nf
  refine ⟨rfl, ?_, ?_, ?_⟩
  · simp only [ToolRegistry.update_performance_tracking, hp]
    rw [dictGet_set_self]
    simp only [Bool.false_eq_true, if_false, havg]
  · intro n2 hn2
    simp only [ToolRegistry.update_performance_tracking, hp]
    rw [dictGet_set_ne _ _ _ _ hn2]
  · rw [update_performance_tracking_tools]
    exact dictGet_set_self _ _ _

theorem iterateFailures_metadata (s : ToolRegistry) (name q : String)
    (ctx : QueryContext) (now : ℚ) (tool : Tool) (e : String) (rt : ℚ)
    (ht : dictGet s.tools name = some tool)
    (hv : tool.validate q ctx = true)
    (he : tool.execu q ctx = (Except.error e, rt))
    (hm : tool.metadata.usage_count = 0) :
    ∀ N : Nat, ∃ md : ToolMetadata,
      dictGet (iterateFailures name q ctx now N s).tools name =
        some { tool with metadata := md } ∧
      md.usage_count = N ∧ (1 ≤ N → md.success_rate = 0) := by
  intro N
  induction N with
  | zero =>
    refine ⟨tool.metadata, ?_, hm, by omega⟩
    simpa [iterateFailures] using ht
  | succ n ih =>
    obtain ⟨md, hgetn, husage, hrate⟩ := ih
    have hstep : (iterateFailures name q ctx now (n + 1) s) =
        (ToolRegistry.execute_tool (iterateFailures name q ctx now n s)
          name q ctx now).2 := rfl
    have hexec : (ToolRegistry.execute_tool
        (iterateFailures name q ctx now n s) name q ctx now).2.tools =
        dictSet (iterateFailures name q ctx now n s).tools name
          { tool with metadata :=
            md.update_metrics false rt now } := by
      have h2 : ToolRegistry.execute_tool (iterateFailures name q ctx now n s)
          name q ctx now =
          ({ tool_name := name, success := false, results := [], sources := [],
             confidence := 0, response_time := rt, error_message := some e },
           ToolRegistry.update_performance_tracking
             { iterateFailures name q ctx now n s with
               tools := dictSet (iterateFailures name q ctx now n s).tools name { tool with metadata := md.update_metrics false rt now } }
             name false rt (some e) now) := by
        simp [ToolRegistry.execute_tool, hgetn, hv, he]
      rw [h2, update_performance_tracking_tools]
    refine ⟨md.update_metrics false rt now, ?_, ?_, ?_⟩
    · rw [hstep, hexec]
      exact dictGet_set_self _ _ _
    · simp only [ToolMetadata.update_metrics]
      omega
    · intro _
      simp only [ToolMetadata.update_metrics]
      by_cases hn0 : n = 0
      · subst hn0
        rw [husage]
        norm_num
      · have husage1 : ¬ md.usage_count + 1 = 1 := by omega
        rw [if_neg husage1, hrate (by omega)]
        norm_num

/-! ### Loop trace lemmas -/

theorem sameButQuery_refl (a : QueryContext) : sameButQuery a a :=
  ⟨rfl, rfl, rfl, rfl, rfl, rfl, rfl, rfl⟩

theorem sameButQuery_trans (a b c : QueryContext) (h1 : sameButQuery a b)
    (h2 : sameButQuery b c) : sameButQuery a c := by
  obtain ⟨x1, x2, x3, x4, x5, x6, x7, x8⟩ := h1
  obtain ⟨y1, y2, y3, y4, y5, y6, y7, y8⟩ := h2
  exact ⟨x1.trans y1, x2.trans y2, x3.trans y3, x4.trans y4, x5.trans y5,
    x6.trans y6, x7.trans y7, x8.trans y8⟩

theorem sameButQuery_set_query (ctx : QueryContext) (q : String) :
    sameButQuery { ctx with query := q } ctx :=
  ⟨rfl, rfl, rfl, rfl, rfl, rfl, rfl, rfl⟩

theorem traceCtx_shift (c : Collab) (s : ToolRegistry) (tmo : ℚ)
    (ctx : QueryContext) : ∀ n : Nat,
      Orchestrator.traceCtx c s tmo ctx (n + 1) =
        Orchestrator.traceCtx c s tmo (Orchestrator.loopStepCtx c s tmo ctx) n := by
  intro n
  induction n with
  | zero => rfl
  | succ m ih =>
    show Orchestrator.loopStepCtx c s tmo
        (Orchestrator.traceCtx c s tmo ctx (m + 1)) = _
    rw [ih]
    rfl

theorem traceExec_shift (c : Collab) (s : ToolRegistry) (tmo : ℚ)
    (ctx : QueryContext) (n : Nat) :
    Orchestrator.traceExec c s tmo ctx (n + 1) =
      Orchestrator.traceExec c s tmo (Orchestrator.loopStepCtx c s tmo ctx) n := by
  simp only [Orchestrator.traceExec, traceCtx_shift]

theorem traceResults_shift (c : Collab) (s : ToolRegistry) (tmo : ℚ)
    (ctx : QueryContext) (n : Nat) :
    Orchestrator.traceResults c s tmo ctx (n + 1) =
      Orchestrator.traceResults c s tmo (Orchestrator.loopStepCtx c s tmo ctx) n := by
  simp only [Orchestrator.traceResults, traceExec_shift, traceCtx_shift]

theorem traceQuality_shift (c : Collab) (s : ToolRegistry) (tmo : ℚ)
    (ctx : QueryContext) (n : Nat) :
    Orchestrator.traceQuality c s tmo ctx (n + 1) =
      Orchestrator.traceQuality c s tmo (Orchestrator.loopStepCtx c s tmo ctx) n := by
  simp only [Orchestrator.traceQuality, traceResults_shift, traceCtx_shift]

theorem traceCand_shift (c : Collab) (s : ToolRegistry) (tmo : ℚ)
    (ctx : QueryContext) (n : Nat) :
    Orchestrator.traceCand c s tmo ctx (n + 1) =
      Orchestrator.traceCand c s tmo (Orchestrator.loopStepCtx c s tmo ctx) n := by
  simp only [Orchestrator.traceCand, traceResults_shift, traceCtx_shift]

theorem bestFoldFrom_succ_front (c : Collab) (s : ToolRegistry) (tmo : ℚ)
    (ctx : QueryContext) (b0 : Option AgentResponse) (n : Nat) :
    Orchestrator.bestFoldFrom c s tmo ctx b0 (n + 1) =
      Orchestrator.bestFoldFrom c s tmo (Orchestrator.loopStepCtx c s tmo ctx)
        (Orchestrator.updateBest b0 (Orchestrator.traceQuality c s tmo ctx 0)
          (Orchestrator.traceCand c s tmo ctx 0)) n := by
  simp only [Orchestrator.bestFoldFrom, List.range_succ_eq_map,
    List.foldl_cons, List.foldl_map]
  apply List.foldl_ext
  intro acc i _
  rw [Nat.succ_eq_add_one, traceQuality_shift, traceCand_shift]

theorem traceResults_zero (c : Collab) (s : ToolRegistry) (tmo : ℚ)
    (ctx : QueryContext) (tr : ToolResults)
    (h : Orchestrator.execute_tools_parallel s ctx
      (Orchestrator.select_tools ctx) tmo = Except.ok tr) :
    Orchestrator.traceResults c s tmo ctx 0 = tr := by
  simp [Orchestrator.traceResults, Orchestrator.traceExec,
    Orchestrator.traceCtx, h]

theorem traceQuality_zero (c : Collab) (s : ToolRegistry) (tmo : ℚ)
    (ctx : QueryContext) (tr : ToolResults)
    (h : Orchestrator.execute_tools_parallel s ctx
      (Orchestrator.select_tools ctx) tmo = Except.ok tr) :
    Orchestrator.traceQuality c s tmo ctx 0 =
      c.assessResults ctx.query tr := by
  simp [Orchestrator.traceQuality, Orchestrator.traceCtx,
    traceResults_zero c s tmo ctx tr h]

theorem traceCand_zero (c : Collab) (s : ToolRegistry) (tmo : ℚ)
    (ctx : QueryContext) (tr : ToolResults)
    (h : Orchestrator.execute_tools_parallel s ctx
      (Orchestrator.select_tools ctx) tmo = Except.ok tr) :
    Orchestrator.traceCand c s tmo ctx 0 =
      Orchestrator.synthesize_response c ctx tr := by
  simp [Orchestrator.traceCand, Orchestrator.traceCtx,
    traceResults_zero c s tmo ctx tr h]

theorem loopStepCtx_ok (c : Collab) (s : ToolRegistry) (tmo : ℚ)
    (ctx : QueryContext) (tr : ToolResults)
    (h : Orchestrator.execute_tools_parallel s ctx
      (Orchestrator.select_tools ctx) tmo = Except.ok tr) :
    Orchestrator.loopStepCtx c s tmo ctx =
      { ctx with query := Orchestrator.refine_query c ctx tr } := by
  simp [Orchestrator.loopStepCtx, h]

theorem loopAux_exhaust (c : Collab) (s : ToolRegistry) (th tmo : ℚ) :
    ∀ (fuel : Nat) (ctx : QueryContext) (best : Option AgentResponse)
      (done : Nat),
      (∀ i, i < fuel → (Orchestrator.traceExec c s tmo ctx i).isOk = true) →
      (∀ i, i < fuel → Orchestrator.traceQuality c s tmo ctx i < th) →
      Orchestrator.loopAux c s th tmo fuel ctx best done =
        Except.ok ((Orchestrator.bestFoldFrom c s tmo ctx best fuel).getD
          (Orchestrator.create_fallback_response c
            (Orchestrator.traceCtx c s tmo ctx fuel)),
          Orchestrator.traceCtx c s tmo ctx fuel, done + fuel) := by
  intro fuel
  induction fuel with
  | zero =>
    intro ctx best done _ _
    simp [Orchestrator.loopAux, Orchestrator.bestFoldFrom,
      Orchestrator.traceCtx]
  | succ m ih =>
    intro ctx best done hok hlow
    have hok0 := hok 0 (Nat.succ_pos m)
    cases h : Orchestrator.execute_tools_parallel s ctx
        (Orchestrator.select_tools ctx) tmo with
    | error e =>
      rw [show Orchestrator.traceExec c s tmo ctx 0 =
        Orchestrator.execute_tools_parallel s ctx
          (Orchestrator.select_tools ctx) tmo from rfl, h] at hok0
      simp [Except.isOk, Except.toBool] at hok0
    | ok tr =>
      have hq0 : c.assessResults ctx.query tr < th := by
        rw [← traceQuality_zero c s tmo ctx tr h]
        exact hlow 0 (Nat.succ_pos m)
      simp only [Orchestrator.loopAux, h]
      rw [if_neg (not_le.mpr hq0)]
      rw [← loopStepCtx_ok c s tmo ctx tr h]
      rw [ih (Orchestrator.loopStepCtx c s tmo ctx)
        (Orchestrator.updateBest best (c.assessResults ctx.query tr)
          (Orchestrator.synthesize_response c ctx tr)) (done + 1)
        (fun i hi => by rw [← traceExec_shift]; exact hok (i + 1) (by omega))
        (fun i hi => by rw [← traceQuality_shift]; exact hlow (i + 1) (by omega))]
      have harith : done + 1 + m = done + (m + 1) := by omega
      rw [harith, ← traceCtx_shift,
        ← traceQuality_zero c s tmo ctx tr h,
        ← traceCand_zero c s tmo ctx tr h,
        ← bestFoldFrom_succ_front]


theorem loopAux_early (c : Collab) (s : ToolRegistry) (th tmo : ℚ) :
    ∀ (fuel : Nat) (ctx : QueryContext) (best : Option AgentResponse)
      (done : Nat) (r : AgentResponse) (c' : QueryContext) (m : Nat),
      Orchestrator.loopAux c s th tmo fuel ctx best done =
        Except.ok (r, c', m) → m < done + fuel →
      ∃ j, j < fuel ∧ m = done + j + 1 ∧
        (∀ i, i < j → Orchestrator.traceQuality c s tmo ctx i < th) ∧
        th ≤ Orchestrator.traceQuality c s tmo ctx j ∧
        r = Orchestrator.traceCand c s tmo ctx j ∧
        c' = Orchestrator.traceCtx c s tmo ctx j := by
  intro fuel
  induction fuel with
  | zero =>
    intro ctx best done r c' m heq hm
    simp only [Orchestrator.loopAux] at heq
    injection heq with heq
    have h5 : done = m := congrArg (fun t => t.2.2) heq
    omega
  | succ k ih =>
    intro ctx best done r c' m heq hm
    cases h : Orchestrator.execute_tools_parallel s ctx
        (Orchestrator.select_tools ctx) tmo with
    | error e =>
      simp only [Orchestrator.loopAux, h] at heq
      exact Except.noConfusion heq
    | ok tr =>
      simp only [Orchestrator.loopAux, h] at heq
      by_cases hq : th ≤ c.assessResults ctx.query tr
      · rw [if_pos hq] at heq
        injection heq with heq
        refine ⟨0, Nat.succ_pos k, ?_, ?_, ?_, ?_, ?_⟩
        · have : m = done + 1 := (congrArg (fun t => t.2.2) heq).symm
          omega
        · intro i hi
          omega
        · rw [traceQuality_zero c s tmo ctx tr h]
          exact hq
        · rw [traceCand_zero c s tmo ctx tr h]
          exact (congrArg (fun t => t.1) heq).symm
        · exact (congrArg (fun t => t.2.1) heq).symm
      · rw [if_neg hq] at heq
        rw [← loopStepCtx_ok c s tmo ctx tr h] at heq
        have hm2 : m < (done + 1) + k := by omega
        obtain ⟨j, hj, hmj, hlow, hth, hr, hc⟩ :=
          ih (Orchestrator.loopStepCtx c s tmo ctx) _ (done + 1) r c' m heq hm2
        refine ⟨j + 1, by omega, by omega, ?_, ?_, ?_, ?_⟩
        · intro i hi
          cases i with
          | zero =>
            rw [traceQuality_zero c s tmo ctx tr h]
            exact lt_of_not_le hq
          | succ i2 =>
            rw [traceQuality_shift]
            exact hlow i2 (by omega)
        · rw [traceQuality_shift]
          exact hth
        · rw [traceCand_shift]
          exact hr
        · rw [traceCtx_shift]
          exact hc

theorem loopAux_fields (c : Collab) (s : ToolRegistry) (th tmo : ℚ) :
    ∀ (fuel : Nat) (ctx : QueryContext) (best : Option AgentResponse)
      (done : Nat),
      sameButQuery (Orchestrator.finalCtxOf
        (Orchestrator.loopAux c s th tmo fuel ctx best done) ctx) ctx := by
  intro fuel
  induction fuel with
  | zero =>
    intro ctx best done
    exact sameButQuery_refl ctx
  | succ m ih =>
    intro ctx best done
    cases h : Orchestrator.execute_tools_parallel s ctx
        (Orchestrator.select_tools ctx) tmo with
    | error e =>
      simp only [Orchestrator.loopAux, h]
      exact sameButQuery_refl ctx
    | ok tr =>
      simp only [Orchestrator.loopAux, h]
      by_cases hq : th ≤ c.assessResults ctx.query tr
      · rw [if_pos hq]
        exact sameButQuery_refl ctx
      · rw [if_neg hq]
        cases h2 : Orchestrator.loopAux c s th tmo m
            { ctx with query := Orchestrator.refine_query c ctx tr }
            (Orchestrator.updateBest best (c.assessResults ctx.query tr)
              (Orchestrator.synthesize_response c ctx tr)) (done + 1) with
        | error e2 =>
          simp only [Orchestrator.finalCtxOf, h2]
          exact sameButQuery_refl ctx
        | ok t =>
          have h3 := ih { ctx with query := Orchestrator.refine_query c ctx tr }
            (Orchestrator.updateBest best (c.assessResults ctx.query tr)
              (Orchestrator.synthesize_response c ctx tr)) (done + 1)
          rw [h2] at h3
          simp only [Orchestrator.finalCtxOf] at h3
          simp only [Orchestrator.finalCtxOf, h2]
          exact sameButQuery_trans _ _ _ h3
            (sameButQuery_set_query ctx (Orchestrator.refine_query c ctx tr))

/-! ### Best-response fold lemmas -/

theorem bestFoldFrom_succ_back (c : Collab) (s : ToolRegistry) (tmo : ℚ)
    (ctx : QueryContext) (b0 : Option AgentResponse) (n : Nat) :
    Orchestrator.bestFoldFrom c s tmo ctx b0 (n + 1) =
      Orchestrator.updateBest (Orchestrator.bestFoldFrom c s tmo ctx b0 n)
        (Orchestrator.traceQuality c s tmo ctx n)
        (Orchestrator.traceCand c s tmo ctx n) := by
  simp only [Orchestrator.bestFoldFrom, List.range_succ, List.foldl_append,
    List.foldl_cons, List.foldl_nil]

theorem bestFoldFrom_cases (c : Collab) (s : ToolRegistry) (tmo : ℚ)
    (ctx : QueryContext) :
    ∀ (n : Nat) (b0 : Option AgentResponse) (b : AgentResponse),
      Orchestrator.bestFoldFrom c s tmo ctx b0 n = some b →
      b0 = some b ∨ ∃ i, i < n ∧ b = Orchestrator.traceCand c s tmo ctx i := by
  intro n
  induction n with
  | zero =>
    intro b0 b h
    exact Or.inl h
  | succ m ih =>
    intro b0 b h
    rw [bestFoldFrom_succ_back] at h
    cases hprev : Orchestrator.bestFoldFrom c s tmo ctx b0 m with
    | none =>
      rw [hprev] at h
      simp only [Orchestrator.updateBest] at h
      injection h with h
      exact Or.inr ⟨m, by omega, h.symm⟩
    | some bp =>
      rw [hprev] at h
      simp only [Orchestrator.updateBest] at h
      by_cases hcomp : bp.confidence < Orchestrator.traceQuality c s tmo ctx m
      · rw [if_pos hcomp] at h
        injection h with h
        exact Or.inr ⟨m, by omega, h.symm⟩
      · rw [if_neg hcomp] at h
        injection h with h
        rcases ih b0 bp hprev with h1 | h1
        · exact Or.inl (by rw [← h]; exact h1)
        · rcases h1 with ⟨i, hi, hbi⟩
          exact Or.inr ⟨i, by omega, by rw [← h]; exact hbi⟩

theorem bestFoldFrom_ne_none (c : Collab) (s : ToolRegistry) (tmo : ℚ)
    (ctx : QueryContext) (b0 : Option AgentResponse) (n : Nat) :
    Orchestrator.bestFoldFrom c s tmo ctx b0 (n + 1) ≠ none := by
  rw [bestFoldFrom_succ_back]
  cases Orchestrator.bestFoldFrom c s tmo ctx b0 n with
  | none => simp [Orchestrator.updateBest]
  | some bp =>
    simp only [Orchestrator.updateBest]
    by_cases hcomp : bp.confidence < Orchestrator.traceQuality c s tmo ctx n
    · rw [if_pos hcomp]
      simp
    · rw [if_neg hcomp]
      simp

/-! ### Response content lemmas -/

theorem troubleshootingContent_ne (q : String) (results : List ResultRecord) :
    Orchestrator.troubleshootingContent q results ≠ "" := by
  intro hc
  have h2 := congrArg String.length hc
  simp only [Orchestrator.troubleshootingContent, String.length_append] at h2
  have h3 : ("" : String).length = 0 := rfl
  have h4 : ("# Cloud Services Troubleshooting Guide\n" : String).length = 39 := rfl
  rw [h3, h4] at h2
  omega

theorem comparisonContent_ne (q : String) (results : List ResultRecord) :
    Orchestrator.comparisonContent q results ≠ "" := by
  intro hc
  have h2 := congrArg String.length hc
  simp only [Orchestrator.comparisonContent, String.length_append] at h2
  have h3 : ("" : String).length = 0 := rfl
  have h4 : ("# Cloud Services Comparison\n" : String).length = 28 := rfl
  rw [h3, h4] at h2
  omega

theorem configurationContent_ne (q : String) (results : List ResultRecord) :
    Orchestrator.configurationContent q results ≠ "" := by
  intro hc
  have h2 := congrArg String.length hc
  simp only [Orchestrator.configurationContent, String.length_append] at h2
  have h3 : ("" : String).length = 0 := rfl
  have h4 : ("# Cloud Service Configuration Guide\n" : String).length = 36 := rfl
  rw [h3, h4] at h2
  omega

theorem generalContent_ne (q : String) (results : List ResultRecord) :
    Orchestrator.generalContent q results ≠ "" := by
  intro hc
  have h2 := congrArg String.length hc
  simp only [Orchestrator.generalContent, String.length_append] at h2
  have h3 : ("" : String).length = 0 := rfl
  have h4 : ("# Cloud Services Information\n" : String).length = 29 := rfl
  rw [h3, h4] at h2
  omega

theorem noResultsText_ne : Orchestrator.noResultsText ≠ "" := by decide

theorem fallbackText_ne : Orchestrator.fallbackText ≠ "" := by decide

theorem generate_response_content_ne (ctx : QueryContext)
    (results : List ResultRecord) :
    Orchestrator.generate_response_content ctx results ≠ "" := by
  simp only [Orchestrator.generate_response_content]
  by_cases h : results = []
  · rw [if_pos h]
    exact noResultsText_ne
  · rw [if_neg h]
    cases ctx.query_type with
    | troubleshooting => exact troubleshootingContent_ne _ _
    | comparison => exact comparisonContent_ne _ _
    | configuration => exact configurationContent_ne _ _
    | general_inquiry => exact generalContent_ne _ _
    | performance => exact generalContent_ne _ _

theorem synthesize_content_en (c : Collab) (ctx : QueryContext)
    (tr : ToolResults) (hl : ctx.language = "en") :
    (Orchestrator.synthesize_response c ctx tr).content ≠ "" := by
  simp only [Orchestrator.synthesize_response, hl]
  simp only [ne_eq, not_true_eq_false, if_false]
  exact generate_response_content_ne ctx _

theorem create_fallback_response_en (c : Collab) (ctx : QueryContext)
    (hl : ctx.language = "en") :
    (Orchestrator.create_fallback_response c ctx).content =
      Orchestrator.fallbackText := by
  simp [Orchestrator.create_fallback_response, hl]

theorem create_fallback_response_fields (c : Collab) (ctx : QueryContext) :
    (Orchestrator.create_fallback_response c ctx).confidence = 3 / 10 ∧
    (Orchestrator.create_fallback_response c ctx).requires_clarification =
      true ∧
    (Orchestrator.create_fallback_response c ctx).sources = [] :=
  ⟨rfl, rfl, rfl⟩

theorem loopStepCtx_language (c : Collab) (s : ToolRegistry) (tmo : ℚ)
    (p : QueryContext) :
    (Orchestrator.loopStepCtx c s tmo p).language = p.language := by
  simp only [Orchestrator.loopStepCtx]
  cases Orchestrator.execute_tools_parallel s p
    (Orchestrator.select_tools p) tmo <;> rfl

theorem traceCtx_language (c : Collab) (s : ToolRegistry) (tmo : ℚ)
    (ctx : QueryContext) : ∀ n : Nat,
      (Orchestrator.traceCtx c s tmo ctx n).language = ctx.language := by
  intro n
  induction n with
  | zero => rfl
  | succ m ih =>
    show (Orchestrator.loopStepCtx c s tmo
      (Orchestrator.traceCtx c s tmo ctx m)).language = _
    rw [loopStepCtx_language]
    exact ih

theorem traceCand_language (c : Collab) (s : ToolRegistry) (tmo : ℚ)
    (ctx : QueryContext) (n : Nat) :
    (Orchestrator.traceCand c s tmo ctx n).language =
      (Orchestrator.traceCtx c s tmo ctx n).language := rfl

theorem traceCand_content_en (c : Collab) (s : ToolRegistry) (tmo : ℚ)
    (ctx : QueryContext) (n : Nat) (hl : ctx.language = "en") :
    (Orchestrator.traceCand c s tmo ctx n).content ≠ "" := by
  have h2 : (Orchestrator.traceCtx c s tmo ctx n).language = "en" := by
    rw [traceCtx_language]
    exact hl
  exact synthesize_content_en c _ _ h2

/-! ### Claim theorems -/

/-- C1 (amended): the loop's SELECT step does not consult
`ToolRegistry.select_tools`; `_select_tools` computes the tool list by a
fixed, registry-independent rule — always `vector_search`, then
`web_search` exactly when the `web_search_enabled` preference holds
(default true), then `rerank`, then the two query-type specific names for
troubleshooting, comparison and performance queries. -/
theorem C1_select_rule : ∀ ctx : QueryContext,
    Orchestrator.select_tools ctx =
      (["vector_search"] ++
        (if ctx.user_preferences.web_search_enabled then ["web_search"]
         else []) ++ ["rerank"]) ++
        Orchestrator.typeSpecificTools ctx.query_type := by
  intro ctx
  cases hq : ctx.query_type <;>
    by_cases hw : ctx.user_preferences.web_search_enabled <;>
      simp [Orchestrator.select_tools, Orchestrator.typeSpecificTools, hq, hw]

attribute [local semireducible] Rat.add Rat.mul Rat.inv Rat.sub in
/-- C1 counterexample: for a concrete troubleshooting context over the
orchestrator's startup registry, the list `_select_tools` passes to the
executor differs from the registry's hybrid selection; it even contains
`error_analyzer`, a name that is not registered at all. -/
theorem C1_counterexample :
    Orchestrator.select_tools ctxC1 ≠
      ToolRegistry.select_tools initRegistry ctxC1.query ctxC1 "hybrid" 5 ∧
    "error_analyzer" ∈ Orchestrator.select_tools ctxC1 ∧
    "error_analyzer" ∉
      ToolRegistry.select_tools initRegistry ctxC1.query ctxC1 "hybrid" 5 ∧
    dictMem initRegistry.tools "error_analyzer" = false := by
  refine ⟨by decide, by decide, by decide, by decide⟩

/-- C2: evidence of the timeout defect in `_execute_tools_parallel`. With a
30-second batch timeout and a tool whose completion takes 31 seconds, the
call raises `TimeoutError` (the uncaught `as_completed` timeout), returning
no result map at all — the completed sibling's result is discarded rather
than returned alongside a timeout-failure placeholder for the straggler.
With a timeout large enough for both tools the same batch returns the
normal result map. -/
theorem C2_timeout_raises :
    Orchestrator.execute_tools_parallel sC2 ctxLoop ["fast", "slow"] 30 =
      Except.error "TimeoutError" ∧
    Orchestrator.execute_tools_parallel sC2 ctxLoop ["fast", "slow"] 32 =
      Except.ok [("fast", ExecEntry.done fastResult),
        ("slow", ExecEntry.done slowResult)] :=
  ⟨rfl, rfl⟩

attribute [local semireducible] Rat.add Rat.mul Rat.inv Rat.sub in
/-- C3 counterexample: with the quality score fixed at 0.1 over a
3-iteration budget (threshold 0.8) and candidate confidences 0.2, 0.5, 0.4,
the loop returns the first candidate (confidence 0.2) even though iteration
2's candidate has confidence 0.5 — bestResponse replacement does not
compare candidate confidences, so the highest-confidence candidate is not
returned. -/
theorem C3_counterexample :
    Except.map (fun t => t.1.confidence)
      (Orchestrator.iterative_processing_loop collabC3 ToolRegistry.empty 3
        (4 / 5) 30 ctxLoop) = Except.ok (1 / 5) ∧
    Except.map (fun t => t.2.2)
      (Orchestrator.iterative_processing_loop collabC3 ToolRegistry.empty 3
        (4 / 5) 30 ctxLoop) = Except.ok 3 ∧
    (Orchestrator.traceCand collabC3 ToolRegistry.empty 30 ctxLoop
      1).confidence = 1 / 2 ∧
    ((1 : ℚ) / 5 < 1 / 2) := by
  refine ⟨by decide, by decide, by decide, by decide⟩

/-- C3 (amended): in every non-accepting iteration, bestResponse is
replaced exactly when it is unset or the iteration's quality score strictly
exceeds the stored response's confidence (`quality_score >
best_response.confidence` — not the candidate's confidence); consequently a
run that exhausts its budget with every quality score below the threshold
returns the fold of that replacement rule over the iteration trace
(best-or-fallback), which need not be the highest-confidence candidate. -/
theorem C3_best_replacement_rule (c : Collab) (s : ToolRegistry)
    (max_iterations : Nat) (th tmo : ℚ) (ctx : QueryContext)
    (hok : ∀ i, i < max_iterations →
      (Orchestrator.traceExec c s tmo ctx i).isOk = true)
    (hlow : ∀ i, i < max_iterations →
      Orchestrator.traceQuality c s tmo ctx i < th) :
    Orchestrator.iterative_processing_loop c s max_iterations th tmo ctx =
      Except.ok ((Orchestrator.bestFold c s tmo ctx max_iterations).getD
        (Orchestrator.create_fallback_response c
          (Orchestrator.traceCtx c s tmo ctx max_iterations)),
        Orchestrator.traceCtx c s tmo ctx max_iterations,
        max_iterations) := by
  have h := loopAux_exhaust c s th tmo max_iterations ctx none 0 hok hlow
  simpa [Orchestrator.iterative_processing_loop, Orchestrator.bestFold]
    using h

attribute [local semireducible] Rat.add Rat.mul Rat.inv Rat.sub in
/-- Witness for the amended C3 theorem at a concrete exhausting run. -/
theorem C3_witness :
    Orchestrator.iterative_processing_loop collabC3 ToolRegistry.empty 3
      (4 / 5) 30 ctxLoop =
      Except.ok
        ((Orchestrator.bestFold collabC3 ToolRegistry.empty 30 ctxLoop 3).getD
          (Orchestrator.create_fallback_response collabC3
            (Orchestrator.traceCtx collabC3 ToolRegistry.empty 30 ctxLoop 3)),
          Orchestrator.traceCtx collabC3 ToolRegistry.empty 30 ctxLoop 3, 3) :=
  C3_best_replacement_rule collabC3 ToolRegistry.empty 3 (4 / 5) 30 ctxLoop
    (by decide) (by decide)

/-- C4: when the loop exhausts its iteration budget with every quality
score below the threshold, it returns bestResponse when one is set and
otherwise the deterministic fallback response (fixed clarification text,
confidence 0.3, `requires_clarification = true`); with at least one
iteration a best response always exists and is one of the iteration
candidates, and for an English-language context the returned content is
never empty — even when every tool fails in every iteration. -/
theorem C4_exhaustion_fallback (c : Collab) (s : ToolRegistry)
    (max_iterations : Nat) (th tmo : ℚ) (ctx : QueryContext)
    (hok : ∀ i, i < max_iterations →
      (Orchestrator.traceExec c s tmo ctx i).isOk = true)
    (hlow : ∀ i, i < max_iterations →
      Orchestrator.traceQuality c s tmo ctx i < th) :
    ∃ r, Orchestrator.iterative_processing_loop c s max_iterations th tmo
        ctx =
      Except.ok (r, Orchestrator.traceCtx c s tmo ctx max_iterations,
        max_iterations) ∧
      (Orchestrator.bestFold c s tmo ctx max_iterations = none →
        r = Orchestrator.create_fallback_response c
          (Orchestrator.traceCtx c s tmo ctx max_iterations) ∧
        r.confidence = 3 / 10 ∧ r.requires_clarification = true ∧
        (ctx.language = "en" → r.content = Orchestrator.fallbackText)) ∧
      (∀ b, Orchestrator.bestFold c s tmo ctx max_iterations = some b →
        r = b) ∧
      (0 < max_iterations → ∃ i, i < max_iterations ∧
        r = Orchestrator.traceCand c s tmo ctx i) ∧
      (ctx.language = "en" → r.content ≠ "") := by
  have hloop := loopAux_exhaust c s th tmo max_iterations ctx none 0 hok hlow
  simp only [Nat.zero_add] at hloop
  refine ⟨(Orchestrator.bestFold c s tmo ctx max_iterations).getD
    (Orchestrator.create_fallback_response c
      (Orchestrator.traceCtx c s tmo ctx max_iterations)),
    ?_, ?_, ?_, ?_, ?_⟩
  · exact hloop
  · intro hnone
    rw [hnone]
    refine ⟨rfl, rfl, rfl, ?_⟩
    intro hl
    exact create_fallback_response_en c _
      (by rw [traceCtx_language]; exact hl)
  · intro b hb
    rw [hb]
    rfl
  · intro hpos
    obtain ⟨mi, hmi⟩ : ∃ mi, max_iterations = mi + 1 :=
      ⟨max_iterations - 1, by omega⟩
    subst hmi
    cases hbf : Orchestrator.bestFold c s tmo ctx (mi + 1) with
    | none => exact absurd hbf (bestFoldFrom_ne_none c s tmo ctx none mi)
    | some b =>
      rcases bestFoldFrom_cases c s tmo ctx (mi + 1) none b hbf with h1 | h1
      · cases h1
      · rcases h1 with ⟨i, hi, hbi⟩
        refine ⟨i, hi, ?_⟩
        simpa using hbi
  · intro hl
    cases hbf : Orchestrator.bestFold c s tmo ctx max_iterations with
    | none =>
      simp only [Option.getD_none]
      rw [create_fallback_response_en c _
        (by rw [traceCtx_language]; exact hl)]
      exact fallbackText_ne
    | some b =>
      simp only [Option.getD_some]
      rcases bestFoldFrom_cases c s tmo ctx max_iterations none b hbf
        with h1 | h1
      · cases h1
      · rcases h1 with ⟨i, hi, hbi⟩
        rw [hbi]
        exact traceCand_content_en c s tmo ctx i hl

attribute [local semireducible] Rat.add Rat.mul Rat.inv Rat.sub in
/-- Witness for the C4 theorem at a concrete run: the loop terminates after
exactly three iterations and returns normally. -/
theorem C4_witness :
    Except.map (fun t => t.2.2)
      (Orchestrator.iterative_processing_loop collabConst ToolRegistry.empty
        3 (4 / 5) 30 ctxLoop) = Except.ok 3 := by
  obtain ⟨r, hr, _⟩ := C4_exhaustion_fallback collabConst ToolRegistry.empty
    3 (4 / 5) 30 ctxLoop (by decide) (by decide)
  rw [hr]
  rfl

/-- C5 counterexample: registering `alpha` under category `c1` and then
re-registering it under `c2` leaves the stale `c1` bucket holding `alpha`,
so the name is in a bucket other than that of its current category; and
unregistering `alpha` afterwards removes it only from the `c2` bucket —
the unregistered name survives in the `c1` bucket. -/
theorem C5_counterexample :
    (dictGet sC5.tools "alpha").map Tool.category = some "c2" ∧
    dictGet sC5.tool_categories "c1" = some ["alpha"] ∧
    (sC5.unregister_tool "alpha").1 = true ∧
    (sC5.unregister_tool "alpha").2.tool_categories = [("c1", ["alpha"])] ∧
    dictMem (sC5.unregister_tool "alpha").2.tools "alpha" = false := by
  refine ⟨rfl, rfl, rfl, rfl, rfl⟩

/-- C5 (amended): under every register/unregister sequence from the empty
registry in which no name is re-registered under a different category, the
category index stays consistent with the authoritative tool map — every
registered tool is stored under its own name and appears exactly in the
bucket of its current category; buckets are nonempty (a bucket emptied by
unregistration is deleted), duplicate-free, and hold only names of
registered tools, so an unregistered name is in no bucket; and —
unconditionally — every name any selection strategy returns is a registered
name. -/
theorem C5_category_index_consistency (ops : List RegOp)
    (hops : opsOk ToolRegistry.empty ops = true) :
    RegInv (applyOps ToolRegistry.empty ops) ∧
    (∀ strategy q ctx k n,
      n ∈ (applyOps ToolRegistry.empty ops).select_tools q ctx strategy k →
      dictMem (applyOps ToolRegistry.empty ops).tools n = true) := by
  have hinv := RegInv_applyOps ops ToolRegistry.empty RegInv_empty hops
  refine ⟨hinv, ?_⟩
  intro strategy q ctx k n hmem
  exact select_tools_mem_tools _ q ctx strategy k n
    (fun nk t hget => (hinv.2.2.1 nk t hget).1) hmem

/-- Witness for the amended C5 theorem at a concrete operation
sequence. -/
theorem C5_witness : RegInv (applyOps ToolRegistry.empty opsW) :=
  (C5_category_index_consistency opsW (by decide)).1

/-- C6: the loop returns before exhausting its budget only through the
quality-threshold acceptance path — a normal return after `m <
max_iterations` iterations implies the last executed iteration's quality
score reached the threshold, every earlier score was below it, and the
returned response is that iteration's candidate; and whenever iteration 1's
quality score already meets the threshold the loop returns that iteration's
candidate after exactly one iteration. -/
theorem C6_accept_only_path (c : Collab) (s : ToolRegistry)
    (max_iterations : Nat) (th tmo : ℚ) (ctx : QueryContext) :
    (∀ r c' m,
      Orchestrator.iterative_processing_loop c s max_iterations th tmo ctx =
        Except.ok (r, c', m) → m < max_iterations →
      ∃ j, j < max_iterations ∧ m = j + 1 ∧
        (∀ i, i < j → Orchestrator.traceQuality c s tmo ctx i < th) ∧
        th ≤ Orchestrator.traceQuality c s tmo ctx j ∧
        r = Orchestrator.traceCand c s tmo ctx j) ∧
    ((Orchestrator.traceExec c s tmo ctx 0).isOk = true →
      th ≤ Orchestrator.traceQuality c s tmo ctx 0 → 0 < max_iterations →
      Orchestrator.iterative_processing_loop c s max_iterations th tmo ctx =
        Except.ok (Orchestrator.traceCand c s tmo ctx 0, ctx, 1)) := by
  constructor
  · intro r c' m heq hm
    obtain ⟨j, hj, hmj, hlow, hth, hr, _⟩ :=
      loopAux_early c s th tmo max_iterations ctx none 0 r c' m heq
        (by omega)
    exact ⟨j, hj, by omega, hlow, hth, hr⟩
  · intro hE hQ hpos
    obtain ⟨k, hk⟩ : ∃ k, max_iterations = k + 1 :=
      ⟨max_iterations - 1, by omega⟩
    subst hk
    cases h : Orchestrator.execute_tools_parallel s ctx
        (Orchestrator.select_tools ctx) tmo with
    | error e =>
      rw [show Orchestrator.traceExec c s tmo ctx 0 =
        Orchestrator.execute_tools_parallel s ctx
          (Orchestrator.select_tools ctx) tmo from rfl, h] at hE
      simp [Except.isOk, Except.toBool] at hE
    | ok tr =>
      show Orchestrator.loopAux c s th tmo (k + 1) ctx none 0 = _
      simp only [Orchestrator.loopAux, h]
      rw [if_pos (by rw [traceQuality_zero c s tmo ctx tr h] at hQ; exact hQ)]
      rw [traceCand_zero c s tmo ctx tr h]

attribute [local semireducible] Rat.add Rat.mul Rat.inv Rat.sub in
/-- Witness for the C6 theorem: an assessor returning 0.9 against threshold
0.8 makes the loop return iteration 1's candidate after exactly one
iteration. -/
theorem C6_witness :
    Orchestrator.iterative_processing_loop collabC6 ToolRegistry.empty 3
      (4 / 5) 30 ctxLoop =
      Except.ok
        (Orchestrator.traceCand collabC6 ToolRegistry.empty 30 ctxLoop 0,
          ctxLoop, 1) :=
  (C6_accept_only_path collabC6 ToolRegistry.empty 3 (4 / 5) 30 ctxLoop).2
    (by decide) (by decide) (by decide)

/-- C7: a registered, validated tool whose execution raises yields a failed
`ToolResult` carrying the fault's description (no fault escapes to the
caller), and its performance record is updated exactly once — total calls
+1, successful calls unchanged, failed calls +1, mean latency recomputed as
`(oldMean·(n-1) + newLatency)/n`, and the error appended to the ring
bounded to the 10 most recent entries — while other tools' records are
untouched; the tool's own metadata is updated through `update_metrics`, and
after `N ≥ 1` consecutive failures from a fresh record the tool's stored
success rate is 0. -/
theorem C7_fault_recorded (s : ToolRegistry) (name q : String)
    (ctx : QueryContext) (now : ℚ) (tool : Tool) (e : String) (rt : ℚ)
    (p : PerfRecord)
    (ht : dictGet s.tools name = some tool)
    (hv : tool.validate q ctx = true)
    (he : tool.execu q ctx = (Except.error e, rt))
    (hp : dictGet s.tool_performance name = some p)
    (hm : tool.metadata.usage_count = 0) :
    (ToolRegistry.execute_tool s name q ctx now).1 =
      { tool_name := name, success := false, results := [], sources := [],
        confidence := 0, response_time := rt, error_message := some e } ∧
    dictGet (ToolRegistry.execute_tool s name q ctx now).2.tool_performance
        name =
      some { total_calls := p.total_calls + 1,
             successful_calls := p.successful_calls,
             failed_calls := p.failed_calls + 1,
             average_response_time :=
               (p.average_response_time * (p.total_calls : ℚ) + rt) /
                 ((p.total_calls : ℚ) + 1),
             last_used := some now,
             error_patterns :=
               takeLast 10 (p.error_patterns ++ [(e, now)]) } ∧
    (∀ n2, n2 ≠ name →
      dictGet (ToolRegistry.execute_tool s name q ctx now).2.tool_performance
          n2 = dictGet s.tool_performance n2) ∧
    dictGet (ToolRegistry.execute_tool s name q ctx now).2.tools name =
      some { tool with
        metadata := tool.metadata.update_metrics false rt now } ∧
    (∀ N, 1 ≤ N →
      (dictGet (iterateFailures name q ctx now N s).tools name).map
        (fun t2 => t2.metadata.success_rate) = some 0) := by
  obtain ⟨h1, h2, h3, h4⟩ :=
    execute_tool_fault s name q ctx now tool e rt p ht hv he hp
  refine ⟨h1, h2, h3, h4, ?_⟩
  intro N hN
  obtain ⟨md, hget, husage, hrate⟩ :=
    iterateFailures_metadata s name q ctx now tool e rt ht hv he hm N
  rw [hget]
  simp [hrate hN]

attribute [local semireducible] Rat.add Rat.mul Rat.inv Rat.sub in
/-- Witness for the C7 theorem: three consecutive failures of the
always-raising tool leave its stored success rate at 0, and the single-call
result carries the fault's text. -/
theorem C7_witness :
    (ToolRegistry.execute_tool sC7 "flaky" "aws" ctxLoop 5).1.error_message =
      some "boom" ∧
    (dictGet (iterateFailures "flaky" "aws" ctxLoop 5 3 sC7).tools
      "flaky").map (fun t2 => t2.metadata.success_rate) = some 0 := by
  have h := C7_fault_recorded sC7 "flaky" "aws" ctxLoop 5 failingTool "boom"
    2 PerfRecord.init rfl rfl rfl rfl rfl
  exact ⟨by rw [h.1], h.2.2.2.2 3 (by omega)⟩

/-- C8: the performance strategy scores exactly the validated tools with
the spec's formula `0.5·successRate + 0.3·(1/(1+avgLatency)) +
0.2·min(1, usageCount/10)`, stable-sorts them by score descending (ties
keep registration order) and returns the top `max_tools` names — it
coincides with the specification-side selection whenever recorded mean
latencies are nonnegative; and a tool whose `validate` rejects never
appears in performance- or relevance-strategy output. -/
theorem C8_performance_selection (s : ToolRegistry) (q : String)
    (ctx : QueryContext) (k : Nat)
    (hnn : ∀ p, p ∈ s.tools → 0 ≤ p.2.metadata.average_response_time) :
    s.select_by_performance q ctx k = specSelectByPerformance s q ctx k ∧
    (∀ n, n ∈ s.select_by_performance q ctx k →
      ∃ t, (n, t) ∈ s.tools ∧ t.validate q ctx = true) ∧
    (∀ n, n ∈ s.select_by_relevance q ctx k →
      ∃ t, (n, t) ∈ s.tools ∧ t.validate q ctx = true) := by
  refine ⟨?_, fun n h => mem_select_by_performance s q ctx k n h,
    fun n h => mem_select_by_relevance s q ctx k n h⟩
  simp only [ToolRegistry.select_by_performance, specSelectByPerformance]
  have heq : s.tools.filterMap (fun p =>
      if p.2.validate q ctx then
        some (p.1, ToolRegistry.performanceScore p.2.metadata) else none) =
    s.tools.filterMap (fun p =>
      if p.2.validate q ctx then
        some (p.1, specPerformanceScore p.2.metadata) else none) := by
    apply filterMap_congr_on
    intro p hp
    by_cases hv : p.2.validate q ctx
    · rw [if_pos hv, if_pos hv,
        performanceScore_eq_spec p.2.metadata (hnn p hp)]
    · rw [if_neg hv, if_neg hv]
  rw [heq]

attribute [local semireducible] Rat.add Rat.mul Rat.inv Rat.sub in
/-- Witness for the C8 theorem over a concrete three-tool registry with one
rejecting tool. -/
theorem C8_witness :
    ToolRegistry.select_by_performance sC8 "aws" ctxLoop 2 =
      specSelectByPerformance sC8 "aws" ctxLoop 2 :=
  (C8_performance_selection sC8 "aws" ctxLoop 2 (by decide)).1

attribute [local semireducible] Rat.add Rat.mul Rat.inv Rat.sub in
/-- C9 counterexample: a concrete 3-iteration run overwrites the shared
context object's `query` field in place — the final state of the object
carries the refined query, not the query it was created with — refuting
the claim that the context passed into an iteration is never mutated. -/
theorem C9_counterexample :
    Except.map (fun t => t.2.1.query)
      (Orchestrator.iterative_processing_loop collabConst ToolRegistry.empty
        3 (4 / 5) 30 ctxLoop) = Except.ok "aws ec2   " ∧
    ctxLoop.query = "aws ec2" ∧ ("aws ec2   " : String) ≠ "aws ec2" := by
  refine ⟨by decide, rfl, by decide⟩

/-- C9 (amended): the loop mutates the shared context object in place, but
only its `query` field: at every normal return the final state of the
context object agrees with the initial context on the user id, thread id,
language, query type, confidence score, domain relevance, session history
and user preferences — every field the iteration's tools read except the
query text. -/
theorem C9_context_mutation (c : Collab) (s : ToolRegistry)
    (max_iterations : Nat) (th tmo : ℚ) (ctx : QueryContext) :
    sameButQuery
      (Orchestrator.finalCtxOf
        (Orchestrator.iterative_processing_loop c s max_iterations th tmo
          ctx) ctx) ctx :=
  loopAux_fields c s th tmo max_iterations ctx none 0

/-- C10: when a registered tool's validation rejects the input,
`execute_tool` returns a failed result with message
`"Input validation failed"`, zero response time and zero confidence, and
the registry state — tool metadata and performance ledger included — is
returned completely unchanged, unlike on the execution-failure path. -/
theorem C10_validation_no_update (s : ToolRegistry) (name q : String)
    (ctx : QueryContext) (now : ℚ) (tool : Tool)
    (ht : dictGet s.tools name = some tool)
    (hv : tool.validate q ctx = false) :
    ToolRegistry.execute_tool s name q ctx now =
      ({ tool_name := name, success := false, results := [], sources := [],
         confidence := 0, response_time := 0,
         error_message := some "Input validation failed" }, s) :=
  execute_tool_validation_rejected s name q ctx now tool ht hv

/-- Witness for the C10 theorem on a concrete rejecting tool. -/
theorem C10_witness :
    ToolRegistry.execute_tool sC10 "picky" "aws" ctxLoop 7 =
      ({ tool_name := "picky", success := false, results := [], sources := [],
         confidence := 0, response_time := 0,
         error_message := some "Input validation failed" }, sC10) :=
  C10_validation_no_update sC10 "picky" "aws" ctxLoop 7 rejectingTool rfl rfl

end Agent
